import Mathlib

/-!
Verification of the suitcase-xdi serializer (src/suitcase/xdi/__init__.py)
against its natural-language specification.

The Python code is shallowly embedded: dictionaries become association
lists, `collections.OrderedDict` becomes an ordered association list with
in-place update and append-on-new-key, Python format strings become a
small template datatype, and exceptions become `Except PyError`.
The external `datetime` and `toml` libraries are out of scope of the
specification; `toml` parsing is represented by documents carrying an
already-parsed `RawConfig`, and `datetime.fromtimestamp(t).isoformat()`
is represented by an explicit injective-by-construction string function.
-/

set_option autoImplicit false

namespace SuitcaseXdi

/-- Nested key/value data carried by documents (Python dict values). -/
inductive Value where
  | str (s : String)
  | num (n : Int)
  | dict (entries : List (String × Value))

/-- A document body: a Python dict with string keys. -/
abbrev Doc := List (String × Value)

/-- Dict lookup (Python `d[k]`, keys unique in a Python dict). -/
def alookup {α : Type} : List (String × α) → String → Option α
  | [], _ => none
  | (k', v) :: rest, k => if k' = k then some v else alookup rest k

/-- Follow a bracketed path `a[b][c]` into a nested value.
Python raises KeyError on a missing key; indexing a non-dict raises
TypeError, which the serializer never catches.  The claims never
exercise the TypeError path, so both failures are collapsed to `none`. -/
def getPath : Value → List String → Option Value
  | v, [] => some v
  | Value.dict es, k :: rest =>
      match alookup es k with
      | some v' => getPath v' rest
      | none => none
  | _, _ :: _ => none

/-- Python `str()` of a value substituted into a format string.
The claims only ever format strings and numbers. -/
def pyStr : Value → String
  | Value.str s => s
  | Value.num n => toString n
  | Value.dict _ => "(dict)"

/-- One piece of a Python format string: literal text or a `{a[b][c]}`
field reference. -/
inductive TmplPart where
  | lit (s : String)
  | ref (path : List String)
deriving DecidableEq

/-- A Python format string such as `"{md[XDI][Element_symbol]}"`,
as a sequence of parts. -/
abbrev Tmpl := List TmplPart

/-- `template.format(**doc)`: every referenced path must resolve,
otherwise the call raises KeyError (modelled as `none`). -/
def renderParts (doc : Doc) : Tmpl → Option String
  | [] => some ""
  | TmplPart.lit s :: rest =>
      match renderParts doc rest with
      | some tail => some (s ++ tail)
      | none => none
  | TmplPart.ref p :: rest =>
      match getPath (Value.dict doc) p with
      | some v =>
          match renderParts doc rest with
          | some tail => some (pyStr v ++ tail)
          | none => none
      | none => none

/-- The source text of a field reference, e.g. `"\x7ba[b]\x7d"`. -/
def refRaw : List String → String
  | [] => "\x7b\x7d"
  | k :: rest => "\x7b" ++ k ++ String.join (rest.map (fun s => "[" ++ s ++ "]")) ++ "\x7d"

/-- The raw source text of one template part. -/
def partRaw : TmplPart → String
  | TmplPart.lit s => s
  | TmplPart.ref p => refRaw p

/-- The raw source text of a template (used for the column-label row,
which the code writes without rendering). -/
def tmplRaw (t : Tmpl) : String := String.join (t.map partRaw)

/-- One entry of the `columns` configuration section. -/
structure ColumnDef where
  column_label : Tmpl
  data_key : String
  column_data : Tmpl
  units : Option String
deriving DecidableEq

/-- A header entry's optional `data` value-template (the shipped
configuration omits `data` for `Scan.start_time` / `Scan.end_time`). -/
abbrev HeaderEntry := Option Tmpl

/-- The result of `toml.loads` / `toml.load`: a dict that may be missing
any of the four sections (accessing a missing section raises KeyError). -/
structure RawConfig where
  versions : Option (List (String × String))
  columns : Option (List (String × ColumnDef))
  required_headers : Option (List (String × HeaderEntry))
  optional_headers : Option (List (String × HeaderEntry))
deriving DecidableEq

/-- Python exceptions raised by the serializer. -/
inductive PyError where
  | exception (msg : String)
  | keyError (k : String)
  | typeError (msg : String)
  | valueError (msg : String)
deriving DecidableEq

/-- `doc["time"]` followed by `datetime.fromtimestamp`: KeyError when
the key is absent, TypeError when not a number. -/
def docTime (doc : Doc) : Except PyError Int :=
  match alookup doc "time" with
  | some (Value.num t) => Except.ok t
  | some _ => Except.error (PyError.typeError "fromtimestamp expects a number")
  | none => Except.error (PyError.keyError "time")

/-- Models the external `datetime.fromtimestamp(t).isoformat()` call
(out of scope of the specification, used only as an opaque conversion). -/
def isoformat (t : Int) : String := "isoformat(" ++ toString t ++ ")"

/-- The header line buffer: an OrderedDict from field name to resolved
string or `None` (the unresolved marker). -/
abbrev Buffer := List (String × Option String)

/-- OrderedDict read access. -/
def odGet : Buffer → String → Option (Option String)
  | [], _ => none
  | (k', v) :: rest, k => if k' = k then some v else odGet rest k

/-- OrderedDict assignment: update an existing key in place,
append a new key at the end. -/
def odSet : Buffer → String → Option String → Buffer
  | [], k, v => [(k, v)]
  | (k', v') :: rest, k, v =>
      if k' = k then (k', v) :: rest else (k', v') :: odSet rest k v

/-- OrderedDict `pop`-style removal of the (unique) entry for a key. -/
def odRemove : Buffer → String → Buffer
  | [], _ => []
  | (k', v') :: rest, k => if k' = k then rest else (k', v') :: odRemove rest k

/-- The key sequence of a buffer. -/
def bufKeys (buf : Buffer) : List String := buf.map Prod.fst

/-- Access one of the four configuration sections
(`self._xdi_file_template[name]`; KeyError when missing). -/
def getSection {α : Type} : Option α → String → Except PyError α
  | some x, _ => Except.ok x
  | none, name => Except.error (PyError.keyError name)

/-- A column's header value: rendered `column_label`, with ` units`
appended when present; `none` on KeyError. -/
def columnValue (col : ColumnDef) (doc : Doc) : Option String :=
  match renderParts doc col.column_label with
  | some s =>
      match col.units with
      | some u => some (s ++ " " ++ u)
      | none => some s
  | none => none

/-- `xdi_value["data"].format(**doc)` under `except KeyError`:
a missing `data` key and a failed render both yield `None`. -/
def renderData (entry : HeaderEntry) (doc : Doc) : Option String :=
  match entry with
  | none => none
  | some t => renderParts doc t

/-- A Python `for kv in section: buffer[kv.key] = f kv` loop. -/
def setAll {α : Type} (f : String × α → Option String) (buf : Buffer) :
    List (String × α) → Buffer
  | [] => buf
  | kv :: rest => setAll f (odSet buf kv.1 (f kv)) rest

/-- `_initialize_header_line_buffer`, `optional_headers` loop:
`Scan.start_time` is always set from the start document's timestamp,
`Scan.end_time` is always left unresolved, every other field gets its
rendered template (or `None`). -/
def initOptional (doc : Doc) : Buffer → List (String × HeaderEntry) → Except PyError Buffer
  | buf, [] => Except.ok buf
  | buf, (k, entry) :: rest =>
      if k = "Scan.start_time" then
        match docTime doc with
        | Except.ok t => initOptional doc (odSet buf k (some (isoformat t))) rest
        | Except.error e => Except.error e
      else if k = "Scan.end_time" then
        initOptional doc (odSet buf k none) rest
      else
        initOptional doc (odSet buf k (renderData entry doc)) rest

/-- `Serializer._initialize_header_line_buffer`. -/
def initialize_header_line_buffer (cfg : RawConfig) (start_doc : Doc) (buf : Buffer) :
    Except PyError Buffer :=
  match getSection cfg.versions "versions" with
  | Except.error e => Except.error e
  | Except.ok vs =>
    let buf := setAll (fun _ => none) buf vs
    match getSection cfg.columns "columns" with
    | Except.error e => Except.error e
    | Except.ok cols =>
      let buf := setAll (fun kv => columnValue kv.2 start_doc) buf cols
      match getSection cfg.required_headers "required_headers" with
      | Except.error e => Except.error e
      | Except.ok reqs =>
        let buf := setAll (fun kv => renderData kv.2 start_doc) buf reqs
        match getSection cfg.optional_headers "optional_headers" with
        | Except.error e => Except.error e
        | Except.ok opts => initOptional start_doc buf opts

/-- The document kinds dispatched by `_update_header_lines_from_doc`. -/
inductive DocName where
  | start
  | descriptor
  | event_page
  | stop
deriving DecidableEq

/-- `get_empty_header_fields`: the section entries whose buffer value is
currently the unresolved marker (snapshot, taken before the loop runs). -/
def emptyFields {α : Type} (buf : Buffer) (dict_ : List (String × α)) :
    List (String × α) :=
  dict_.filter (fun kv => decide (odGet buf kv.1 = some none))

/-- `_update_header_lines_from_doc`, `optional_headers` loop:
the timestamp special cases apply only for the matching document kind,
otherwise the generic template render runs. -/
def updOptional (doc_name : DocName) (doc : Doc) :
    Buffer → List (String × HeaderEntry) → Except PyError Buffer
  | buf, [] => Except.ok buf
  | buf, (k, entry) :: rest =>
      if k = "Scan.start_time" ∧ doc_name = DocName.start then
        match docTime doc with
        | Except.ok t => updOptional doc_name doc (odSet buf k (some (isoformat t))) rest
        | Except.error e => Except.error e
      else if k = "Scan.end_time" ∧ doc_name = DocName.stop then
        match docTime doc with
        | Except.ok t => updOptional doc_name doc (odSet buf k (some (isoformat t))) rest
        | Except.error e => Except.error e
      else
        updOptional doc_name doc (odSet buf k (renderData entry doc)) rest

/-- `Serializer._update_header_lines_from_doc`. -/
def update_header_lines_from_doc (cfg : RawConfig) (doc_name : DocName) (doc : Doc)
    (buf : Buffer) : Except PyError Buffer :=
  match getSection cfg.versions "versions" with
  | Except.error e => Except.error e
  | Except.ok vs =>
    let buf := setAll (fun kv => some kv.2) buf (emptyFields buf vs)
    match getSection cfg.columns "columns" with
    | Except.error e => Except.error e
    | Except.ok cols =>
      let buf := setAll (fun kv => columnValue kv.2 doc) buf (emptyFields buf cols)
      match getSection cfg.required_headers "required_headers" with
      | Except.error e => Except.error e
      | Except.ok reqs =>
        let buf := setAll (fun kv => renderData kv.2 doc) buf (emptyFields buf reqs)
        match getSection cfg.optional_headers "optional_headers" with
        | Except.error e => Except.error e
        | Except.ok opts => updOptional doc_name doc buf (emptyFields buf opts)

/-- Python `"# {} = {}".format(field, value)` stringification of a
buffer value: `None` renders as the literal text `None`. -/
def headerValueStr : Option String → String
  | some s => s
  | none => "None"

/-- One `# field = value` header line. -/
def fieldLine (kv : String × Option String) : String :=
  "# " ++ kv.1 ++ " = " ++ headerValueStr kv.2

/-- The unrendered column-label row written after the separator. -/
def labelRow (cols : List ColumnDef) : String :=
  "# " ++ String.intercalate "\t" (cols.map (fun c => tmplRaw c.column_label))

/-- `Serializer._write_header`: the popped `XDI` value alone on the first
line, then `# field = value` for every remaining buffer entry in order,
then the separator and the column-label row.  `pop("XDI")` raises
KeyError when absent; `write(None)` raises TypeError. -/
def write_header (buf : Buffer) (cols : List ColumnDef) : Except PyError (List String) :=
  match odGet buf "XDI" with
  | none => Except.error (PyError.keyError "XDI")
  | some none => Except.error (PyError.typeError "write argument must be str, not None")
  | some (some xdiLine) =>
      Except.ok (xdiLine :: (odRemove buf "XDI").map fieldLine
        ++ ["#----", labelRow cols])

/-- Python `str.startswith`, as a character-prefix test (the meaning of
Lean's own `String.startsWith`, stated over the character data so that
it can be reasoned about). -/
def startswith (line pre : String) : Bool := pre.data.isPrefixOf line.data

/-- The copy loop of `Serializer.stop`: every line of the original file
that does not start with the header marker `#` is written to the
replacement file, in order. -/
def copy_data_lines : List String → List String
  | [] => []
  | line :: rest =>
      if startswith line "#" then copy_data_lines rest
      else line :: copy_data_lines rest

/-- The finalization rewrite: a fresh header followed by the copied
non-header lines of the original file. -/
def finalize_lines (header : List String) (orig : List String) : List String :=
  header ++ copy_data_lines orig

/-- The lines of a file that are not header lines. -/
def dataLines (lines : List String) : List String :=
  lines.filter (fun l => !(startswith l "#"))

/-- `event_page`'s row render: `column["column_data"].format(**doc)` for
every column; a KeyError here is uncaught (fatal). -/
def renderRowCells (doc : Doc) : List ColumnDef → Except PyError (List String)
  | [] => Except.ok []
  | c :: rest =>
      match renderParts doc c.column_data with
      | some s =>
          match renderRowCells doc rest with
          | Except.ok tail => Except.ok (s :: tail)
          | Except.error e => Except.error e
      | none => Except.error (PyError.keyError "column_data")

/-- Python `set.add`. -/
def insertUid (uids : List String) (u : String) : List String :=
  if u ∈ uids then uids else uids ++ [u]

/-- A start document: its dict body, and the parse results of the two
possible configuration sources under `md["suitcase-xdi"]` (the external
toml library is represented by the already-parsed `RawConfig`). -/
structure StartDoc where
  body : Doc
  cfg : Option RawConfig
  cfgFilePath : Option RawConfig

/-- An event-descriptor document. -/
structure DescriptorDoc where
  body : Doc
  data_keys : List String
  uid : String

/-- An event-page document (one data record). -/
structure EventPageDoc where
  body : Doc
  descriptor : String

/-- A stop document. -/
structure StopDoc where
  body : Doc

/-- The tagged document variants routed by `DocumentRouter`. -/
inductive Document where
  | start (d : StartDoc)
  | descriptor (d : DescriptorDoc)
  | event_page (d : EventPageDoc)
  | stop (d : StopDoc)

/-- The mutable state of one `Serializer` instance.  The single managed
output file is represented by its written lines and an open flag; the
`print` diagnostics are collected in order. -/
structure SState where
  file_pref : Tmpl
  templated_file_pref : String
  event_descriptor_uids : List String
  xdi_file_template : Option RawConfig
  header_line_buffer : Buffer
  columns : Option (List ColumnDef)
  export_data_keys : Option (List String)
  output_open : Bool
  output_lines : List String
  diagnostics : List String

/-- `Serializer.__init__`. -/
def initState (file_pref : Tmpl) : SState where
  file_pref := file_pref
  templated_file_pref := ""
  event_descriptor_uids := []
  xdi_file_template := none
  header_line_buffer := []
  columns := none
  export_data_keys := none
  output_open := false
  output_lines := []
  diagnostics := []

/-- The error message of `Serializer.start` when no configuration source
is present (Python concatenates the adjacent string literals). -/
def configErrMsg : String :=
  "configuration must be specified as a file in md[suitcase-xdi][config-file-path]" ++
  "or as a string in md[suitcase-xdi][config]"

/-- The `if "config" ... elif "config-file-path" ... else raise` chain of
`Serializer.start`: the inline string is consulted first. -/
def configFromDoc (d : StartDoc) : Except PyError RawConfig :=
  match d.cfg with
  | some c => Except.ok c
  | none =>
      match d.cfgFilePath with
      | some c => Except.ok c
      | none => Except.error (PyError.exception configErrMsg)

/-- `Serializer.start`. -/
def startHandler (s : SState) (d : StartDoc) : Except PyError SState :=
  match s.xdi_file_template with
  | some _ => Except.error (PyError.exception "")
  | none =>
    match configFromDoc d with
    | Except.error e => Except.error e
    | Except.ok cfg =>
      match initialize_header_line_buffer cfg d.body [] with
      | Except.error e => Except.error e
      | Except.ok buf0 =>
        match update_header_lines_from_doc cfg DocName.start d.body buf0 with
        | Except.error e => Except.error e
        | Except.ok buf1 =>
          match renderParts d.body s.file_pref with
          | none => Except.error (PyError.keyError "file_prefix template")
          | some prefStr =>
            match getSection cfg.columns "columns" with
            | Except.error e => Except.error e
            | Except.ok cols =>
              let columns := cols.map Prod.snd
              if columns.length = 0 then
                Except.error (PyError.valueError "found no Columns")
              else
                match write_header buf1 columns with
                | Except.error e => Except.error e
                | Except.ok header =>
                  Except.ok { s with
                    xdi_file_template := some cfg
                    header_line_buffer := buf1
                    templated_file_pref := prefStr
                    columns := some columns
                    export_data_keys := some (columns.map ColumnDef.data_key)
                    output_open := true
                    output_lines := header }

/-- `Serializer.descriptor`: `set(self.export_data_keys)` raises
TypeError when `export_data_keys` is still `None`; the uid is added when
the declared data keys contain every export data key; the header update
runs in both branches. -/
def descriptorHandler (s : SState) (d : DescriptorDoc) : Except PyError SState :=
  match s.export_data_keys with
  | none => Except.error (PyError.typeError "set() argument is None")
  | some ks =>
    let uids :=
      if ks.all (fun k => d.data_keys.contains k) then insertUid s.event_descriptor_uids d.uid
      else s.event_descriptor_uids
    match s.xdi_file_template with
    | none => Except.error (PyError.typeError "NoneType is not subscriptable")
    | some cfg =>
      match update_header_lines_from_doc cfg DocName.descriptor d.body s.header_line_buffer with
      | Except.error e => Except.error e
      | Except.ok buf =>
        Except.ok { s with event_descriptor_uids := uids, header_line_buffer := buf }

/-- The first `print` diagnostic of `Serializer.event_page` (the Python
source lacks the `f` prefix, so the braces are printed literally). -/
def noDescriptorMsg : String :=
  "have not seen a descriptor with data keys \x7bself.export_data_keys\x7d yet"

/-- The second `print` diagnostic of `Serializer.event_page`. -/
def noDataMsg : String := "this event has no data to export"

/-- `Serializer.event_page`. -/
def eventPageHandler (s : SState) (d : EventPageDoc) : Except PyError SState :=
  if s.event_descriptor_uids.length = 0 then
    Except.ok { s with diagnostics := s.diagnostics ++ [noDescriptorMsg] }
  else if d.descriptor ∈ s.event_descriptor_uids then
    match s.columns with
    | none => Except.error (PyError.typeError "NoneType is not iterable")
    | some cols =>
      match renderRowCells d.body cols with
      | Except.error e => Except.error e
      | Except.ok cells =>
        if s.output_open then
          Except.ok { s with output_lines := s.output_lines ++ [String.intercalate "\t" cells] }
        else
          Except.error (PyError.valueError "I/O operation on closed file")
  else
    Except.ok { s with diagnostics := s.diagnostics ++ [noDataMsg] }

/-- `Serializer.stop`: update the header from the stop document, close
the manager, then rewrite the artifact as a fresh header followed by
every non-`#` line of the old contents. -/
def stopHandler (s : SState) (d : StopDoc) : Except PyError SState :=
  match s.xdi_file_template with
  | none => Except.error (PyError.typeError "NoneType is not subscriptable")
  | some cfg =>
    match update_header_lines_from_doc cfg DocName.stop d.body s.header_line_buffer with
    | Except.error e => Except.error e
    | Except.ok buf =>
      match s.columns with
      | none => Except.error (PyError.typeError "NoneType is not iterable")
      | some cols =>
        match write_header buf cols with
        | Except.error e => Except.error e
        | Except.ok header =>
          Except.ok { s with
            header_line_buffer := buf
            output_open := false
            output_lines := finalize_lines header s.output_lines }

/-- `DocumentRouter` dispatch. -/
def processDoc (s : SState) : Document → Except PyError SState
  | Document.start d => startHandler s d
  | Document.descriptor d => descriptorHandler s d
  | Document.event_page d => eventPageHandler s d
  | Document.stop d => stopHandler s d

/-- Feed a list of documents through the serializer. -/
def processDocs (s : SState) : List Document → Except PyError SState
  | [] => Except.ok s
  | d :: rest =>
      match processDoc s d with
      | Except.ok s' => processDocs s' rest
      | Except.error e => Except.error e

/-- Repeated header updates (one per mid-run document). -/
def update_many (cfg : RawConfig) : Buffer → List (DocName × Doc) → Except PyError Buffer
  | buf, [] => Except.ok buf
  | buf, (dn, d) :: rest =>
      match update_header_lines_from_doc cfg dn d buf with
      | Except.ok buf' => update_many cfg buf' rest
      | Except.error e => Except.error e

/-- The header-field order the specification declares: the concatenation
of the four sections' field names in declaration order.
Modelled from the spec: "the header-field order in output equals the
concatenation of versions, columns, required_headers, optional_headers
in their declared order". -/
def specSectionOrder (vs : List (String × String)) (cols : List (String × ColumnDef))
    (reqs opts : List (String × HeaderEntry)) : List String :=
  vs.map Prod.fst ++ cols.map Prod.fst ++ reqs.map Prod.fst ++ opts.map Prod.fst

/-- The descriptor uids declared by a document list, in order. -/
def descriptorUids : List Document → List String
  | [] => []
  | Document.descriptor d :: rest => d.uid :: descriptorUids rest
  | _ :: rest => descriptorUids rest

/-- The event-page documents of a document list, in order. -/
def eventsOf : List Document → List EventPageDoc
  | [] => []
  | Document.event_page e :: rest => e :: eventsOf rest
  | _ :: rest => eventsOf rest

/-- `true` when the document is a descriptor or an event page. -/
def isMidDoc : Document → Bool
  | Document.descriptor _ => true
  | Document.event_page _ => true
  | _ => false

/-- `true` when every event page is preceded by a descriptor document
carrying its descriptor uid (`seen` accumulates the uids declared so
far); this is the delivery order guaranteed by the upstream document
stream contract. -/
def descriptorsPrecedeEvents : List String → List Document → Bool
  | _, [] => true
  | seen, Document.descriptor d :: rest => descriptorsPrecedeEvents (d.uid :: seen) rest
  | seen, Document.event_page e :: rest =>
      seen.contains e.descriptor && descriptorsPrecedeEvents seen rest
  | seen, _ :: rest => descriptorsPrecedeEvents seen rest

/-! ### OrderedDict lemmas -/

theorem odGet_odSet_self (buf : Buffer) (k : String) (v : Option String) :
    odGet (odSet buf k v) k = some v := by
  induction buf with
  | nil => simp [odSet, odGet]
  | cons hd tl ih =>
    obtain ⟨k₀, v₀⟩ := hd
    by_cases h : k₀ = k
    · simp [odSet, odGet, h]
    · simp [odSet, odGet, h, ih]

theorem odGet_odSet_ne (buf : Buffer) (k k' : String) (v : Option String) (h : k ≠ k') :
    odGet (odSet buf k v) k' = odGet buf k' := by
  induction buf with
  | nil => simp [odSet, odGet, h]
  | cons hd tl ih =>
    obtain ⟨k₀, v₀⟩ := hd
    by_cases h0 : k₀ = k
    · subst h0
      simp only [odSet, if_pos rfl, odGet]
      rw [if_neg (by exact fun hk => h hk)]
      rw [if_neg (by exact fun hk => h hk)]
    · simp only [odSet, if_neg h0, odGet]
      by_cases h1 : k₀ = k'
      · rw [if_pos h1, if_pos h1]
      · rw [if_neg h1, if_neg h1, ih]

theorem odGet_setAll_ne {α : Type} (f : String × α → Option String) (l : List (String × α)) :
    ∀ (buf : Buffer) (k : String), (∀ kv ∈ l, kv.1 ≠ k) →
      odGet (setAll f buf l) k = odGet buf k := by
  induction l with
  | nil => intro buf k _; rfl
  | cons hd tl ih =>
    intro buf k h
    have hhd : hd.1 ≠ k := h hd (List.mem_cons_self hd tl)
    show odGet (setAll f (odSet buf hd.1 (f hd)) tl) k = odGet buf k
    rw [ih _ k (fun kv hkv => h kv (List.mem_cons_of_mem hd hkv))]
    exact odGet_odSet_ne _ _ _ _ hhd

theorem odGet_updOptional_ne (dn : DocName) (doc : Doc) (l : List (String × HeaderEntry)) :
    ∀ (buf buf' : Buffer) (k : String), (∀ kv ∈ l, kv.1 ≠ k) →
      updOptional dn doc buf l = Except.ok buf' → odGet buf' k = odGet buf k := by
  induction l with
  | nil =>
    intro buf buf' k _ h
    simp only [updOptional] at h
    cases h
    rfl
  | cons hd tl ih =>
    intro buf buf' k h hrun
    obtain ⟨k₀, entry⟩ := hd
    have hne : k₀ ≠ k := h _ (List.mem_cons_self _ _)
    have htl : ∀ kv ∈ tl, kv.1 ≠ k := fun kv hkv => h kv (List.mem_cons_of_mem _ hkv)
    simp only [updOptional] at hrun
    split at hrun
    · cases hdt : docTime doc with
      | ok t =>
        rw [hdt] at hrun
        rw [ih _ _ k htl hrun, odGet_odSet_ne _ _ _ _ hne]
      | error e => rw [hdt] at hrun; cases hrun
    · split at hrun
      · cases hdt : docTime doc with
        | ok t =>
          rw [hdt] at hrun
          rw [ih _ _ k htl hrun, odGet_odSet_ne _ _ _ _ hne]
        | error e => rw [hdt] at hrun; cases hrun
      · rw [ih _ _ k htl hrun, odGet_odSet_ne _ _ _ _ hne]

theorem odGet_initOptional_ne (doc : Doc) (l : List (String × HeaderEntry)) :
    ∀ (buf buf' : Buffer) (k : String), (∀ kv ∈ l, kv.1 ≠ k) →
      initOptional doc buf l = Except.ok buf' → odGet buf' k = odGet buf k := by
  induction l with
  | nil =>
    intro buf buf' k _ h
    simp only [initOptional] at h
    cases h
    rfl
  | cons hd tl ih =>
    intro buf buf' k h hrun
    obtain ⟨k₀, entry⟩ := hd
    have hne : k₀ ≠ k := h _ (List.mem_cons_self _ _)
    have htl : ∀ kv ∈ tl, kv.1 ≠ k := fun kv hkv => h kv (List.mem_cons_of_mem _ hkv)
    simp only [initOptional] at hrun
    split at hrun
    · cases hdt : docTime doc with
      | ok t =>
        rw [hdt] at hrun
        rw [ih _ _ k htl hrun, odGet_odSet_ne _ _ _ _ hne]
      | error e => rw [hdt] at hrun; cases hrun
    · split at hrun
      · rw [ih _ _ k htl hrun, odGet_odSet_ne _ _ _ _ hne]
      · rw [ih _ _ k htl hrun, odGet_odSet_ne _ _ _ _ hne]

theorem mem_emptyFields {α : Type} {buf : Buffer} {l : List (String × α)} {kv : String × α}
    (h : kv ∈ emptyFields buf l) : odGet buf kv.1 = some none ∧ kv ∈ l := by
  rw [emptyFields, List.mem_filter] at h
  exact ⟨of_decide_eq_true h.2, h.1⟩

/-! ### Resolved values survive `_update_header_lines_from_doc` -/

theorem setAll_preserves_resolved {α : Type} (f : String × α → Option String)
    (buf : Buffer) (sec : List (String × α)) (k : String) (v : String)
    (h : odGet buf k = some (some v)) :
    odGet (setAll f buf (emptyFields buf sec)) k = some (some v) := by
  rw [odGet_setAll_ne]
  · exact h
  · intro kv hkv heq
    have h0 := (mem_emptyFields hkv).1
    rw [heq, h] at h0
    simp at h0

theorem updOptional_preserves_resolved (dn : DocName) (doc : Doc)
    (buf buf' : Buffer) (opts : List (String × HeaderEntry)) (k : String) (v : String)
    (h : odGet buf k = some (some v))
    (hu : updOptional dn doc buf (emptyFields buf opts) = Except.ok buf') :
    odGet buf' k = some (some v) := by
  rw [odGet_updOptional_ne dn doc _ buf buf' k _ hu]
  · exact h
  · intro kv hkv heq
    have h0 := (mem_emptyFields hkv).1
    rw [heq, h] at h0
    simp at h0

theorem update_preserves_resolved (cfg : RawConfig) (dn : DocName) (doc : Doc)
    (buf buf' : Buffer) (k : String) (v : String)
    (h : odGet buf k = some (some v))
    (hu : update_header_lines_from_doc cfg dn doc buf = Except.ok buf') :
    odGet buf' k = some (some v) := by
  unfold update_header_lines_from_doc at hu
  cases hvs : cfg.versions with
  | none => rw [hvs] at hu; simp [getSection] at hu
  | some vs =>
  rw [hvs] at hu
  cases hcols : cfg.columns with
  | none => rw [hcols] at hu; simp [getSection] at hu
  | some cols =>
  rw [hcols] at hu
  cases hreqs : cfg.required_headers with
  | none => rw [hreqs] at hu; simp [getSection] at hu
  | some reqs =>
  rw [hreqs] at hu
  cases hopts : cfg.optional_headers with
  | none => rw [hopts] at hu; simp [getSection] at hu
  | some opts =>
  rw [hopts] at hu
  simp only [getSection] at hu
  have h1 := setAll_preserves_resolved (fun kv => some kv.2) buf vs k v h
  have h2 := setAll_preserves_resolved (fun kv => columnValue kv.2 doc) _ cols k v h1
  have h3 := setAll_preserves_resolved (fun kv => renderData kv.2 doc) _ reqs k v h2
  exact updOptional_preserves_resolved dn doc _ buf' opts k v h3 hu

theorem update_many_preserves_resolved (cfg : RawConfig) (l : List (DocName × Doc)) :
    ∀ (buf buf' : Buffer) (k : String) (v : String),
      odGet buf k = some (some v) → update_many cfg buf l = Except.ok buf' →
      odGet buf' k = some (some v) := by
  induction l with
  | nil =>
    intro buf buf' k v h hrun
    simp only [update_many] at hrun
    cases hrun
    exact h
  | cons hd tl ih =>
    intro buf buf' k v h hrun
    simp only [update_many] at hrun
    split at hrun
    · rename_i buf₁ hstep
      exact ih buf₁ buf' k v (update_preserves_resolved cfg hd.1 hd.2 buf buf₁ k v h hstep) hrun
    · cases hrun

/-! ### Shared concrete fixtures -/

/-- A concrete column definition used by the witnesses. -/
def col1 : ColumnDef where
  column_label := [TmplPart.lit "energy"]
  data_key := "det1"
  column_data := [TmplPart.ref ["data", "det1"]]
  units := some "eV"

/-- A concrete configuration used by the witnesses. -/
def cfg1 : RawConfig where
  versions := some [("XDI", "# XDI/1.0 Bluesky")]
  columns := some [("Column.1", col1)]
  required_headers := some
    [("Element.symbol", some [TmplPart.ref ["md", "XDI", "Element_symbol"]]),
     ("Element.edge", some [TmplPart.ref ["md", "XDI", "Element_edge"]])]
  optional_headers := some [("Scan.start_time", none), ("Scan.end_time", none)]

/-- A concrete document body supplying both required header fields. -/
def docW : Doc :=
  [("md", Value.dict [("XDI", Value.dict
      [("Element_symbol", Value.str "B"), ("Element_edge", Value.str "K")])]),
   ("time", Value.num 5)]

/-- A buffer in which `Element.symbol` is already resolved to `"A"` and
`Element.edge` is still unresolved. -/
def bufW : Buffer := [("Element.symbol", some "A"), ("Element.edge", none)]

/-- The buffer after feeding `docW` to the update: `Element.edge` is
resolved from the document, `Element.symbol` keeps its first value. -/
def bufW' : Buffer := [("Element.symbol", some "A"), ("Element.edge", some "K")]

/-- C1: once a header field's value in the buffer is resolved
(non-`None`), `_update_header_lines_from_doc` never changes it — only
fields whose current value is `None` are rewritten, so the first
successful render is the final value no matter how many later documents
could also supply the field. -/
theorem resolved_header_value_stable_under_update (cfg : RawConfig) (dn : DocName)
    (doc : Doc) (buf buf' : Buffer) (k : String) (v : String)
    (hres : odGet buf k = some (some v))
    (hupd : update_header_lines_from_doc cfg dn doc buf = Except.ok buf') :
    odGet buf' k = some (some v) :=
  update_preserves_resolved cfg dn doc buf buf' k v hres hupd

/-- Witness for C1: `Element.symbol` is resolved to `"A"`, a descriptor
document that could render it to `"B"` arrives (and resolves the still
pending `Element.edge` to `"K"`), and the value stays `"A"`. -/
theorem resolved_header_value_stable_under_update_witness :
    update_header_lines_from_doc cfg1 DocName.descriptor docW bufW = Except.ok bufW' ∧
    odGet bufW' "Element.symbol" = some (some "A") :=
  ⟨by rfl,
   resolved_header_value_stable_under_update cfg1 DocName.descriptor docW bufW bufW'
     "Element.symbol" "A" (by decide) (by rfl)⟩

/-! ### Timestamp special cases (`Scan.start_time` / `Scan.end_time`) -/

theorem initOptional_sets_start_time (doc : Doc) (t : Int)
    (ht : docTime doc = Except.ok t) (l : List (String × HeaderEntry)) :
    ∀ (buf buf' : Buffer), "Scan.start_time" ∈ l.map Prod.fst →
      initOptional doc buf l = Except.ok buf' →
      odGet buf' "Scan.start_time" = some (some (isoformat t)) := by
  induction l with
  | nil => intro buf buf' hmem _; simp at hmem
  | cons hd tl ih =>
    intro buf buf' hmem hrun
    obtain ⟨k₀, entry⟩ := hd
    simp only [initOptional] at hrun
    by_cases h0 : k₀ = "Scan.start_time"
    · rw [if_pos h0, ht] at hrun
      by_cases hmem' : "Scan.start_time" ∈ tl.map Prod.fst
      · exact ih _ _ hmem' hrun
      · rw [odGet_initOptional_ne doc tl _ buf' _ ?later hrun]
        · rw [h0]; exact odGet_odSet_self _ _ _
        case later =>
          intro kv hkv heq
          exact hmem' (heq ▸ List.mem_map_of_mem Prod.fst hkv)
    · have hmem' : "Scan.start_time" ∈ tl.map Prod.fst := by
        rcases List.mem_map.mp hmem with ⟨kv, hkv, hfst⟩
        rcases List.mem_cons.mp hkv with h | h
        · subst h; exact absurd hfst h0
        · exact List.mem_map.mpr ⟨kv, h, hfst⟩
      rw [if_neg h0] at hrun
      split at hrun
      · exact ih _ _ hmem' hrun
      · exact ih _ _ hmem' hrun

theorem initialize_sets_start_time (cfg : RawConfig) (doc : Doc) (buf₀ buf' : Buffer)
    (t : Int) (opts : List (String × HeaderEntry))
    (ht : docTime doc = Except.ok t)
    (hopts : cfg.optional_headers = some opts)
    (hmem : "Scan.start_time" ∈ opts.map Prod.fst)
    (hinit : initialize_header_line_buffer cfg doc buf₀ = Except.ok buf') :
    odGet buf' "Scan.start_time" = some (some (isoformat t)) := by
  unfold initialize_header_line_buffer at hinit
  cases hvs : cfg.versions with
  | none => rw [hvs] at hinit; simp [getSection] at hinit
  | some vs =>
  rw [hvs] at hinit
  cases hcols : cfg.columns with
  | none => rw [hcols] at hinit; simp [getSection] at hinit
  | some cols =>
  rw [hcols] at hinit
  cases hreqs : cfg.required_headers with
  | none => rw [hreqs] at hinit; simp [getSection] at hinit
  | some reqs =>
  rw [hreqs, hopts] at hinit
  simp only [getSection] at hinit
  exact initOptional_sets_start_time doc t ht opts _ _ hmem hinit

theorem updOptional_sets_end_time_on_stop (doc : Doc) (t : Int)
    (ht : docTime doc = Except.ok t) (l : List (String × HeaderEntry)) :
    ∀ (buf buf' : Buffer), "Scan.end_time" ∈ l.map Prod.fst →
      updOptional DocName.stop doc buf l = Except.ok buf' →
      odGet buf' "Scan.end_time" = some (some (isoformat t)) := by
  induction l with
  | nil => intro buf buf' hmem _; simp at hmem
  | cons hd tl ih =>
    intro buf buf' hmem hrun
    obtain ⟨k₀, entry⟩ := hd
    simp only [updOptional] at hrun
    by_cases hmem' : "Scan.end_time" ∈ tl.map Prod.fst
    · split at hrun
      · cases hdt : docTime doc with
        | ok t' => rw [hdt] at hrun; exact ih _ _ hmem' hrun
        | error e => rw [hdt] at hrun; cases hrun
      · split at hrun
        · cases hdt : docTime doc with
          | ok t' => rw [hdt] at hrun; exact ih _ _ hmem' hrun
          | error e => rw [hdt] at hrun; cases hrun
        · exact ih _ _ hmem' hrun
    · have h0 : k₀ = "Scan.end_time" := by
        rcases List.mem_map.mp hmem with ⟨kv, hkv, hfst⟩
        rcases List.mem_cons.mp hkv with h | h
        · subst h; exact hfst
        · exact absurd (List.mem_map.mpr ⟨kv, h, hfst⟩) hmem'
      subst h0
      have hpres : ∀ (b b' : Buffer), updOptional DocName.stop doc b tl = Except.ok b' →
          odGet b' "Scan.end_time" = odGet b "Scan.end_time" := by
        intro b b' hb
        refine odGet_updOptional_ne DocName.stop doc tl b b' _ ?_ hb
        intro kv hkv heq
        exact hmem' (heq ▸ List.mem_map_of_mem Prod.fst hkv)
      split at hrun
      · rename_i hc1
        exact absurd hc1 (by decide)
      · split at hrun
        · rw [ht] at hrun
          rw [hpres _ _ hrun, odGet_odSet_self]
        · rename_i hc1 hc2
          exact absurd (by decide) hc2

theorem setAll_empties_not_mem {α : Type} (f : String × α → Option String)
    (buf : Buffer) (sec : List (String × α)) (k : String)
    (h : k ∉ sec.map Prod.fst) :
    odGet (setAll f buf (emptyFields buf sec)) k = odGet buf k := by
  apply odGet_setAll_ne
  intro kv hkv heq
  exact h (heq ▸ List.mem_map_of_mem Prod.fst (mem_emptyFields hkv).2)

theorem mem_emptyFields_keys {α : Type} {buf : Buffer} {l : List (String × α)} {k : String}
    (hmem : k ∈ l.map Prod.fst) (hval : odGet buf k = some none) :
    k ∈ (emptyFields buf l).map Prod.fst := by
  rcases List.mem_map.mp hmem with ⟨kv, hkv, hfst⟩
  refine List.mem_map.mpr ⟨kv, ?_, hfst⟩
  rw [emptyFields, List.mem_filter]
  exact ⟨hkv, decide_eq_true (by rw [hfst]; exact hval)⟩

theorem update_stop_sets_end_time (cfg : RawConfig) (doc : Doc) (buf buf' : Buffer)
    (t : Int) (vs : List (String × String)) (cols : List (String × ColumnDef))
    (reqs opts : List (String × HeaderEntry))
    (ht : docTime doc = Except.ok t)
    (hpend : odGet buf "Scan.end_time" = some none)
    (hvs : cfg.versions = some vs) (hnv : "Scan.end_time" ∉ vs.map Prod.fst)
    (hcols : cfg.columns = some cols) (hnc : "Scan.end_time" ∉ cols.map Prod.fst)
    (hreqs : cfg.required_headers = some reqs) (hnr : "Scan.end_time" ∉ reqs.map Prod.fst)
    (hopts : cfg.optional_headers = some opts)
    (hmem : "Scan.end_time" ∈ opts.map Prod.fst)
    (hu : update_header_lines_from_doc cfg DocName.stop doc buf = Except.ok buf') :
    odGet buf' "Scan.end_time" = some (some (isoformat t)) := by
  unfold update_header_lines_from_doc at hu
  rw [hvs, hcols, hreqs, hopts] at hu
  simp only [getSection] at hu
  have h1 := setAll_empties_not_mem (fun kv => some kv.2) buf vs "Scan.end_time" hnv
  rw [hpend] at h1
  have h2 := setAll_empties_not_mem (fun kv => columnValue kv.2 doc)
    (setAll (fun kv => some kv.2) buf (emptyFields buf vs)) cols "Scan.end_time" hnc
  rw [h1] at h2
  have h3 := setAll_empties_not_mem (fun kv => renderData kv.2 doc)
    (setAll (fun kv => columnValue kv.2 doc)
      (setAll (fun kv => some kv.2) buf (emptyFields buf vs))
      (emptyFields (setAll (fun kv => some kv.2) buf (emptyFields buf vs)) cols))
    reqs "Scan.end_time" hnr
  rw [h2] at h3
  refine updOptional_sets_end_time_on_stop doc t ht _ _ _ ?_ hu
  exact mem_emptyFields_keys hmem h3

/-- The configuration of the C2 counterexample: identical to `cfg1`
except that `Scan.end_time` carries the template `"early"`, which
renders against any document. -/
def cfgE : RawConfig where
  versions := some [("XDI", "# XDI/1.0 Bluesky")]
  columns := some [("Column.1", col1)]
  required_headers := some
    [("Element.symbol", some [TmplPart.ref ["md", "XDI", "Element_symbol"]]),
     ("Element.edge", some [TmplPart.ref ["md", "XDI", "Element_edge"]])]
  optional_headers := some
    [("Scan.start_time", none), ("Scan.end_time", some [TmplPart.lit "early"])]

/-- A stop document with timestamp 200. -/
def stopDocE : Doc := [("time", Value.num 200)]

/-- The buffer after initializing from `cfgE` and `docW`. -/
def bufE0 : Buffer :=
  [("XDI", none), ("Column.1", some "energy eV"), ("Element.symbol", some "B"),
   ("Element.edge", some "K"), ("Scan.start_time", some "isoformat(5)"),
   ("Scan.end_time", none)]

/-- The buffer after the start-document update: `Scan.end_time` has
already resolved from its template, before any stop document. -/
def bufE1 : Buffer :=
  [("XDI", some "# XDI/1.0 Bluesky"), ("Column.1", some "energy eV"),
   ("Element.symbol", some "B"), ("Element.edge", some "K"),
   ("Scan.start_time", some "isoformat(5)"), ("Scan.end_time", some "early")]

/-- Counterexample to C2: with a value-template `"early"` declared for
`Scan.end_time`, the field resolves already on the start document (the
document kind is not Stop), and the stop-document update leaves the
template value in place, so the final value is not the ISO-8601
conversion of the stop timestamp. -/
theorem scan_end_time_template_resolves_early :
    initialize_header_line_buffer cfgE docW [] = Except.ok bufE0 ∧
    update_header_lines_from_doc cfgE DocName.start docW bufE0 = Except.ok bufE1 ∧
    odGet bufE1 "Scan.end_time" = some (some "early") ∧
    docTime stopDocE = Except.ok 200 ∧
    update_header_lines_from_doc cfgE DocName.stop stopDocE bufE1 = Except.ok bufE1 ∧
    odGet bufE1 "Scan.end_time" ≠ some (some (isoformat 200)) :=
  ⟨by rfl, by rfl, by rfl, by rfl, by rfl, by decide⟩

/-- C2 as amended: for `Scan.start_time` declared under
`optional_headers`, the final value is always the ISO-8601 conversion of
the start document's timestamp regardless of any template; for
`Scan.end_time`, the stop-document update sets the ISO-8601 conversion
of the stop timestamp provided the field is still unresolved when the
stop document arrives (a renderable template would have resolved it
earlier, see the counterexample). -/
theorem scan_times_resolve_amended (cfg : RawConfig) (startDoc stopDoc : Doc)
    (mids : List (DocName × Doc)) (buf0 buf1 buf2 bufF : Buffer) (t0 t2 : Int)
    (vs : List (String × String)) (cols : List (String × ColumnDef))
    (reqs opts : List (String × HeaderEntry))
    (hvs : cfg.versions = some vs) (hcols : cfg.columns = some cols)
    (hreqs : cfg.required_headers = some reqs) (hopts : cfg.optional_headers = some opts)
    (ht0 : docTime startDoc = Except.ok t0) (ht2 : docTime stopDoc = Except.ok t2)
    (hsmem : "Scan.start_time" ∈ opts.map Prod.fst)
    (hemem : "Scan.end_time" ∈ opts.map Prod.fst)
    (hev : "Scan.end_time" ∉ vs.map Prod.fst)
    (hec : "Scan.end_time" ∉ cols.map Prod.fst)
    (her : "Scan.end_time" ∉ reqs.map Prod.fst)
    (hinit : initialize_header_line_buffer cfg startDoc [] = Except.ok buf0)
    (hstart : update_header_lines_from_doc cfg DocName.start startDoc buf0 = Except.ok buf1)
    (hmids : update_many cfg buf1 mids = Except.ok buf2)
    (hpend : odGet buf2 "Scan.end_time" = some none)
    (hstop : update_header_lines_from_doc cfg DocName.stop stopDoc buf2 = Except.ok bufF) :
    odGet bufF "Scan.start_time" = some (some (isoformat t0)) ∧
    odGet bufF "Scan.end_time" = some (some (isoformat t2)) := by
  constructor
  · have h0 := initialize_sets_start_time cfg startDoc [] buf0 t0 opts ht0 hopts hsmem hinit
    have h1 := update_preserves_resolved cfg DocName.start startDoc buf0 buf1 _ _ h0 hstart
    have h2 := update_many_preserves_resolved cfg mids buf1 buf2 _ _ h1 hmids
    exact update_preserves_resolved cfg DocName.stop stopDoc buf2 bufF _ _ h2 hstop
  · exact update_stop_sets_end_time cfg stopDoc buf2 bufF t2 vs cols reqs opts
      ht2 hpend hvs hev hcols hec hreqs her hopts hemem hstop

/-- The buffer after the start-document update under `cfg1`
(no template for `Scan.end_time`, so it stays unresolved). -/
def bufP1 : Buffer :=
  [("XDI", some "# XDI/1.0 Bluesky"), ("Column.1", some "energy eV"),
   ("Element.symbol", some "B"), ("Element.edge", some "K"),
   ("Scan.start_time", some "isoformat(5)"), ("Scan.end_time", none)]

/-- The final buffer of the C2 witness run. -/
def bufPF : Buffer :=
  [("XDI", some "# XDI/1.0 Bluesky"), ("Column.1", some "energy eV"),
   ("Element.symbol", some "B"), ("Element.edge", some "K"),
   ("Scan.start_time", some "isoformat(5)"), ("Scan.end_time", some "isoformat(200)")]

/-- Witness for the amended C2 on a concrete run under `cfg1`. -/
theorem scan_times_resolve_amended_witness :
    odGet bufPF "Scan.start_time" = some (some (isoformat 5)) ∧
    odGet bufPF "Scan.end_time" = some (some (isoformat 200)) :=
  scan_times_resolve_amended cfg1 docW stopDocE [] bufE0 bufP1 bufP1 bufPF 5 200
    _ _ _ _ rfl rfl rfl rfl (by rfl) (by rfl)
    (by decide) (by decide) (by decide) (by decide) (by decide)
    (by rfl) (by rfl) (by rfl) (by decide) (by rfl)

/-! ### Buffer key order -/

theorem alookup_mem {α : Type} (l : List (String × α)) (k : String) (a : α)
    (h : alookup l k = some a) : (k, a) ∈ l := by
  induction l with
  | nil => simp [alookup] at h
  | cons hd tl ih =>
    obtain ⟨k₀, v₀⟩ := hd
    by_cases h0 : k₀ = k
    · rw [alookup, if_pos h0] at h
      injection h with h
      subst h0; subst h
      exact List.mem_cons_self _ _
    · rw [alookup, if_neg h0] at h
      exact List.mem_cons_of_mem _ (ih h)

theorem bufKeys_odSet_mem (buf : Buffer) (k : String) (v : Option String)
    (h : k ∈ bufKeys buf) : bufKeys (odSet buf k v) = bufKeys buf := by
  induction buf with
  | nil => simp [bufKeys] at h
  | cons hd tl ih =>
    obtain ⟨k₀, v₀⟩ := hd
    by_cases h0 : k₀ = k
    · simp [odSet, h0, bufKeys]
    · have h' : k ∈ bufKeys tl := by
        simp only [bufKeys, List.map_cons, List.mem_cons] at h
        rcases h with h | h
        · exact absurd h.symm h0
        · exact h
      simp [odSet, h0, bufKeys]
      simpa [bufKeys] using ih h'

theorem bufKeys_odSet_not_mem (buf : Buffer) (k : String) (v : Option String)
    (h : k ∉ bufKeys buf) : bufKeys (odSet buf k v) = bufKeys buf ++ [k] := by
  induction buf with
  | nil => simp [odSet, bufKeys]
  | cons hd tl ih =>
    obtain ⟨k₀, v₀⟩ := hd
    have h0 : k₀ ≠ k := by
      intro hk; exact h (by simp [bufKeys, hk])
    have h' : k ∉ bufKeys tl := fun hk => h (by simp [bufKeys]; right; simpa [bufKeys] using hk)
    simp [odSet, h0, bufKeys]
    simpa [bufKeys] using ih h'

theorem mem_bufKeys_of_odGet (buf : Buffer) (k : String) (v : Option String)
    (h : odGet buf k = some v) : k ∈ bufKeys buf := by
  induction buf with
  | nil => simp [odGet] at h
  | cons hd tl ih =>
    obtain ⟨k₀, v₀⟩ := hd
    by_cases h0 : k₀ = k
    · simp [bufKeys, h0]
    · rw [odGet, if_neg h0] at h
      simp [bufKeys]
      right
      simpa [bufKeys] using ih h

theorem odGet_setAll_get {α : Type} (f : String × α → Option String) (l : List (String × α)) :
    ∀ (buf : Buffer) (k : String) (a : α), (l.map Prod.fst).Nodup → (k, a) ∈ l →
      odGet (setAll f buf l) k = some (f (k, a)) := by
  induction l with
  | nil => intro _ _ _ _ h; simp at h
  | cons hd tl ih =>
    intro buf k a hnd hmem
    rcases List.mem_cons.mp hmem with h | h
    · have hne : ∀ kv ∈ tl, kv.1 ≠ k := by
        intro kv hkv heq
        have hnotin : hd.1 ∉ tl.map Prod.fst := (List.nodup_cons.mp (by simpa using hnd)).1
        have hh : hd.1 = k := by rw [← h]
        have hk : k ∈ tl.map Prod.fst := by
          rw [← heq]; exact List.mem_map_of_mem Prod.fst hkv
        exact hnotin (by rw [hh]; exact hk)
      show odGet (setAll f (odSet buf hd.1 (f hd)) tl) k = some (f (k, a))
      rw [odGet_setAll_ne f tl _ k hne, ← h]
      exact odGet_odSet_self _ _ _
    · exact ih _ k a (by simpa using (List.nodup_cons.mp (by simpa using hnd)).2) h

theorem bufKeys_setAll_fresh {α : Type} (f : String × α → Option String)
    (l : List (String × α)) :
    ∀ (buf : Buffer), (l.map Prod.fst).Nodup →
      (∀ k ∈ l.map Prod.fst, k ∉ bufKeys buf) →
      bufKeys (setAll f buf l) = bufKeys buf ++ l.map Prod.fst := by
  induction l with
  | nil => intro buf _ _; simp [setAll]
  | cons hd tl ih =>
    intro buf hnd hfresh
    have hhd : hd.1 ∉ bufKeys buf :=
      hfresh hd.1 (List.mem_map_of_mem Prod.fst (List.mem_cons_self _ _))
    have hnd' : (tl.map Prod.fst).Nodup := (List.nodup_cons.mp (by simpa using hnd)).2
    have hhdtl : hd.1 ∉ tl.map Prod.fst := (List.nodup_cons.mp (by simpa using hnd)).1
    show bufKeys (setAll f (odSet buf hd.1 (f hd)) tl) = _
    rw [ih (odSet buf hd.1 (f hd)) hnd' ?fresh]
    · rw [bufKeys_odSet_not_mem _ _ _ hhd]
      simp
    case fresh =>
      intro k hk
      rw [bufKeys_odSet_not_mem _ _ _ hhd]
      intro hmem
      rcases List.mem_append.mp hmem with hm | hm
      · exact hfresh k (List.mem_cons_of_mem _ hk) hm
      · rw [List.mem_singleton] at hm
        exact hhdtl (hm ▸ hk)

theorem bufKeys_initOptional_fresh (doc : Doc) (l : List (String × HeaderEntry)) :
    ∀ (buf buf' : Buffer), (l.map Prod.fst).Nodup →
      (∀ k ∈ l.map Prod.fst, k ∉ bufKeys buf) →
      initOptional doc buf l = Except.ok buf' →
      bufKeys buf' = bufKeys buf ++ l.map Prod.fst := by
  induction l with
  | nil =>
    intro buf buf' _ _ h
    simp only [initOptional] at h
    cases h
    simp
  | cons hd tl ih =>
    intro buf buf' hnd hfresh hrun
    obtain ⟨k₀, entry⟩ := hd
    have hhd : k₀ ∉ bufKeys buf :=
      hfresh k₀ (List.mem_map_of_mem Prod.fst (List.mem_cons_self _ _))
    have hnd' : (tl.map Prod.fst).Nodup := (List.nodup_cons.mp (by simpa using hnd)).2
    have hhdtl : k₀ ∉ tl.map Prod.fst := (List.nodup_cons.mp (by simpa using hnd)).1
    have hfresh' : ∀ (v : Option String) (k : String), k ∈ tl.map Prod.fst →
        k ∉ bufKeys (odSet buf k₀ v) := by
      intro v k hk
      rw [bufKeys_odSet_not_mem _ _ _ hhd]
      intro hmem
      rcases List.mem_append.mp hmem with hm | hm
      · exact hfresh k (List.mem_cons_of_mem _ hk) hm
      · rw [List.mem_singleton] at hm
        exact hhdtl (hm ▸ hk)
    have hfin : ∀ (v : Option String) (b' : Buffer),
        initOptional doc (odSet buf k₀ v) tl = Except.ok b' →
        bufKeys b' = bufKeys buf ++ k₀ :: tl.map Prod.fst := by
      intro v b' hb
      rw [ih _ _ hnd' (hfresh' v) hb, bufKeys_odSet_not_mem _ _ _ hhd]
      simp
    simp only [initOptional] at hrun
    split at hrun
    · cases hdt : docTime doc with
      | ok t => rw [hdt] at hrun; simpa using hfin _ _ hrun
      | error e => rw [hdt] at hrun; cases hrun
    · split at hrun
      · simpa using hfin _ _ hrun
      · simpa using hfin _ _ hrun

theorem bufKeys_setAll_mem {α : Type} (f : String × α → Option String)
    (l : List (String × α)) :
    ∀ (buf : Buffer), (∀ kv ∈ l, kv.1 ∈ bufKeys buf) →
      bufKeys (setAll f buf l) = bufKeys buf := by
  induction l with
  | nil => intro buf _; rfl
  | cons hd tl ih =>
    intro buf hmem
    have hhd : hd.1 ∈ bufKeys buf := hmem hd (List.mem_cons_self _ _)
    show bufKeys (setAll f (odSet buf hd.1 (f hd)) tl) = _
    rw [ih (odSet buf hd.1 (f hd)) ?mem, bufKeys_odSet_mem _ _ _ hhd]
    case mem =>
      intro kv hkv
      rw [bufKeys_odSet_mem _ _ _ hhd]
      exact hmem kv (List.mem_cons_of_mem _ hkv)

theorem bufKeys_updOptional_mem (dn : DocName) (doc : Doc)
    (l : List (String × HeaderEntry)) :
    ∀ (buf buf' : Buffer), (∀ kv ∈ l, kv.1 ∈ bufKeys buf) →
      updOptional dn doc buf l = Except.ok buf' →
      bufKeys buf' = bufKeys buf := by
  induction l with
  | nil =>
    intro buf buf' _ h
    simp only [updOptional] at h
    cases h
    rfl
  | cons hd tl ih =>
    intro buf buf' hmem hrun
    obtain ⟨k₀, entry⟩ := hd
    have hhd : k₀ ∈ bufKeys buf := hmem _ (List.mem_cons_self _ _)
    have hfin : ∀ (v : Option String) (b' : Buffer),
        updOptional dn doc (odSet buf k₀ v) tl = Except.ok b' →
        bufKeys b' = bufKeys buf := by
      intro v b' hb
      rw [ih _ _ ?mem hb, bufKeys_odSet_mem _ _ _ hhd]
      case mem =>
        intro kv hkv
        rw [bufKeys_odSet_mem _ _ _ hhd]
        exact hmem kv (List.mem_cons_of_mem _ hkv)
    simp only [updOptional] at hrun
    split at hrun
    · cases hdt : docTime doc with
      | ok t => rw [hdt] at hrun; exact hfin _ _ hrun
      | error e => rw [hdt] at hrun; cases hrun
    · split at hrun
      · cases hdt : docTime doc with
        | ok t => rw [hdt] at hrun; exact hfin _ _ hrun
        | error e => rw [hdt] at hrun; cases hrun
      · exact hfin _ _ hrun

theorem bufKeys_update (cfg : RawConfig) (dn : DocName) (doc : Doc)
    (buf buf' : Buffer)
    (hu : update_header_lines_from_doc cfg dn doc buf = Except.ok buf') :
    bufKeys buf' = bufKeys buf := by
  unfold update_header_lines_from_doc at hu
  cases hvs : cfg.versions with
  | none => rw [hvs] at hu; simp [getSection] at hu
  | some vs =>
  rw [hvs] at hu
  cases hcols : cfg.columns with
  | none => rw [hcols] at hu; simp [getSection] at hu
  | some cols =>
  rw [hcols] at hu
  cases hreqs : cfg.required_headers with
  | none => rw [hreqs] at hu; simp [getSection] at hu
  | some reqs =>
  rw [hreqs] at hu
  cases hopts : cfg.optional_headers with
  | none => rw [hopts] at hu; simp [getSection] at hu
  | some opts =>
  rw [hopts] at hu
  simp only [getSection] at hu
  have hstage : ∀ {α : Type} (f : String × α → Option String) (b : Buffer)
      (sec : List (String × α)),
      bufKeys (setAll f b (emptyFields b sec)) = bufKeys b := by
    intro α f b sec
    exact bufKeys_setAll_mem f _ b
      (fun kv hkv => mem_bufKeys_of_odGet b kv.1 none (mem_emptyFields hkv).1)
  rw [bufKeys_updOptional_mem dn doc _ _ buf' ?mem hu, hstage, hstage, hstage]
  case mem =>
    intro kv hkv
    exact mem_bufKeys_of_odGet _ kv.1 none (mem_emptyFields hkv).1

theorem bufKeys_update_many (cfg : RawConfig) (l : List (DocName × Doc)) :
    ∀ (buf buf' : Buffer), update_many cfg buf l = Except.ok buf' →
      bufKeys buf' = bufKeys buf := by
  induction l with
  | nil =>
    intro buf buf' h
    simp only [update_many] at h
    cases h
    rfl
  | cons hd tl ih =>
    intro buf buf' hrun
    simp only [update_many] at hrun
    split at hrun
    · rename_i buf₁ hstep
      rw [ih buf₁ buf' hrun, bufKeys_update cfg hd.1 hd.2 buf buf₁ hstep]
    · cases hrun

theorem nodup4 {A B C D : List String} (h : (A ++ B ++ C ++ D).Nodup) :
    A.Nodup ∧ B.Nodup ∧ C.Nodup ∧ D.Nodup ∧
    (∀ k ∈ B, k ∉ A) ∧ (∀ k ∈ C, k ∉ A ∧ k ∉ B) ∧
    (∀ k ∈ D, k ∉ A ∧ k ∉ B ∧ k ∉ C) := by
  rw [List.nodup_append, List.nodup_append, List.nodup_append] at h
  obtain ⟨⟨⟨hA, hB, hAB⟩, hC, hABC⟩, hD, hABCD⟩ := h
  refine ⟨hA, hB, hC, hD, ?_, ?_, ?_⟩
  · exact fun k hkB hkA => hAB hkA hkB
  · exact fun k hkC =>
      ⟨fun hkA => hABC (List.mem_append_left _ hkA) hkC,
       fun hkB => hABC (List.mem_append_right _ hkB) hkC⟩
  · refine fun k hkD => ⟨?_, ?_, ?_⟩
    · exact fun hkA =>
        hABCD (List.mem_append_left _ (List.mem_append_left _ hkA)) hkD
    · exact fun hkB =>
        hABCD (List.mem_append_left _ (List.mem_append_right _ hkB)) hkD
    · exact fun hkC => hABCD (List.mem_append_right _ hkC) hkD

theorem bufKeys_initialize (cfg : RawConfig) (doc : Doc) (buf' : Buffer)
    (vs : List (String × String)) (cols : List (String × ColumnDef))
    (reqs opts : List (String × HeaderEntry))
    (hvs : cfg.versions = some vs) (hcols : cfg.columns = some cols)
    (hreqs : cfg.required_headers = some reqs) (hopts : cfg.optional_headers = some opts)
    (hnd : (specSectionOrder vs cols reqs opts).Nodup)
    (hinit : initialize_header_line_buffer cfg doc [] = Except.ok buf') :
    bufKeys buf' = specSectionOrder vs cols reqs opts := by
  unfold initialize_header_line_buffer at hinit
  rw [hvs, hcols, hreqs, hopts] at hinit
  simp only [getSection] at hinit
  obtain ⟨hA, hB, hC, hD, hBA, hCAB, hDABC⟩ := nodup4 hnd
  have e1 : bufKeys (setAll (fun _ => none) [] vs) = vs.map Prod.fst := by
    rw [bufKeys_setAll_fresh _ _ _ hA (by intro k _ hk; simp [bufKeys] at hk)]
    rfl
  have e2 : bufKeys (setAll (fun kv => columnValue kv.2 doc)
      (setAll (fun _ => none) [] vs) cols) = vs.map Prod.fst ++ cols.map Prod.fst := by
    rw [bufKeys_setAll_fresh _ _ _ hB (by intro k hk; rw [e1]; exact hBA k hk), e1]
  have e3 : bufKeys (setAll (fun kv => renderData kv.2 doc)
      (setAll (fun kv => columnValue kv.2 doc) (setAll (fun _ => none) [] vs) cols) reqs)
      = vs.map Prod.fst ++ cols.map Prod.fst ++ reqs.map Prod.fst := by
    rw [bufKeys_setAll_fresh _ _ _ hC ?fr, e2, List.append_assoc]
    case fr =>
      intro k hk
      rw [e2]
      intro hmem
      rcases List.mem_append.mp hmem with hm | hm
      · exact (hCAB k hk).1 hm
      · exact (hCAB k hk).2 hm
  rw [bufKeys_initOptional_fresh doc opts _ buf' hD ?fr hinit, e3]
  · simp [specSectionOrder]
  case fr =>
    intro k hk
    rw [e3]
    intro hmem
    rcases List.mem_append.mp hmem with hm | hm
    · rcases List.mem_append.mp hm with hm' | hm'
      · exact (hDABC k hk).1 hm'
      · exact (hDABC k hk).2.1 hm'
    · exact (hDABC k hk).2.2 hm

theorem initialize_version_value_none (cfg : RawConfig) (doc : Doc) (buf' : Buffer)
    (vs : List (String × String)) (cols : List (String × ColumnDef))
    (reqs opts : List (String × HeaderEntry)) (k : String)
    (hvs : cfg.versions = some vs) (hcols : cfg.columns = some cols)
    (hreqs : cfg.required_headers = some reqs) (hopts : cfg.optional_headers = some opts)
    (hk : k ∈ vs.map Prod.fst) (hndv : (vs.map Prod.fst).Nodup)
    (hnc : k ∉ cols.map Prod.fst) (hnr : k ∉ reqs.map Prod.fst)
    (hno : k ∉ opts.map Prod.fst)
    (hinit : initialize_header_line_buffer cfg doc [] = Except.ok buf') :
    odGet buf' k = some none := by
  unfold initialize_header_line_buffer at hinit
  rw [hvs, hcols, hreqs, hopts] at hinit
  simp only [getSection] at hinit
  obtain ⟨kv, hkv, hfst⟩ := List.mem_map.mp hk
  have h1 : odGet (setAll (fun _ => none) [] vs) k = some none := by
    have := odGet_setAll_get (fun _ => none) vs [] k kv.2 hndv ?mem
    · exact this
    case mem =>
      have : (kv.1, kv.2) = kv := rfl
      rw [← hfst]
      rw [this]
      exact hkv
  have hne : ∀ {α : Type} (sec : List (String × α)), k ∉ sec.map Prod.fst →
      ∀ kv' ∈ sec, kv'.1 ≠ k := by
    intro α sec hsec kv' hkv' heq
    exact hsec (heq ▸ List.mem_map_of_mem Prod.fst hkv')
  have h2 : odGet (setAll (fun kv => columnValue kv.2 doc)
      (setAll (fun _ => none) [] vs) cols) k = some none := by
    rw [odGet_setAll_ne _ _ _ _ (hne cols hnc)]
    exact h1
  have h3 : odGet (setAll (fun kv => renderData kv.2 doc)
      (setAll (fun kv => columnValue kv.2 doc) (setAll (fun _ => none) [] vs) cols)
      reqs) k = some none := by
    rw [odGet_setAll_ne _ _ _ _ (hne reqs hnr)]
    exact h2
  rw [odGet_initOptional_ne doc opts _ buf' k (hne opts hno) hinit]
  exact h3

theorem update_resolves_version (cfg : RawConfig) (dn : DocName) (doc : Doc)
    (buf buf' : Buffer) (vs : List (String × String)) (cols : List (String × ColumnDef))
    (reqs opts : List (String × HeaderEntry)) (xlit : String)
    (hvs : cfg.versions = some vs) (hcols : cfg.columns = some cols)
    (hreqs : cfg.required_headers = some reqs) (hopts : cfg.optional_headers = some opts)
    (hx : alookup vs "XDI" = some xlit)
    (hndv : (vs.map Prod.fst).Nodup)
    (hval : odGet buf "XDI" = some none)
    (hu : update_header_lines_from_doc cfg dn doc buf = Except.ok buf') :
    odGet buf' "XDI" = some (some xlit) := by
  unfold update_header_lines_from_doc at hu
  rw [hvs, hcols, hreqs, hopts] at hu
  simp only [getSection] at hu
  have hmem := alookup_mem vs "XDI" xlit hx
  have hmemE : ("XDI", xlit) ∈ emptyFields buf vs := by
    rw [emptyFields, List.mem_filter]
    exact ⟨hmem, decide_eq_true hval⟩
  have hndE : ((emptyFields buf vs).map Prod.fst).Nodup := by
    refine List.Nodup.sublist (List.Sublist.map Prod.fst ?_) hndv
    exact List.filter_sublist _
  have h1 : odGet (setAll (fun kv => some kv.2) buf (emptyFields buf vs)) "XDI"
      = some (some xlit) :=
    odGet_setAll_get (fun kv => some kv.2) (emptyFields buf vs) buf "XDI" xlit hndE hmemE
  have h2 := setAll_preserves_resolved (fun kv => columnValue kv.2 doc) _ cols _ _ h1
  have h3 := setAll_preserves_resolved (fun kv => renderData kv.2 doc) _ reqs _ _ h2
  exact updOptional_preserves_resolved dn doc _ buf' opts _ _ h3 hu

/-- Removal of the first occurrence of a key from a name list (the key
order produced by `OrderedDict.pop`). -/
def removeFirst : List String → String → List String
  | [], _ => []
  | k' :: rest, k => if k' = k then rest else k' :: removeFirst rest k

theorem bufKeys_odRemove (buf : Buffer) (k : String) :
    bufKeys (odRemove buf k) = removeFirst (bufKeys buf) k := by
  induction buf with
  | nil => rfl
  | cons hd tl ih =>
    obtain ⟨k₀, v₀⟩ := hd
    by_cases h0 : k₀ = k
    · simp [odRemove, removeFirst, bufKeys, h0]
    · simp only [odRemove, bufKeys, List.map_cons, removeFirst, if_neg h0]
      have ih' : List.map Prod.fst (odRemove tl k) = removeFirst (List.map Prod.fst tl) k := ih
      rw [ih']

theorem write_header_eq (buf : Buffer) (cols : List ColumnDef) (x : String)
    (h : odGet buf "XDI" = some (some x)) :
    write_header buf cols =
      Except.ok (x :: (odRemove buf "XDI").map fieldLine ++ ["#----", labelRow cols]) := by
  unfold write_header
  rw [h]

/-- The configuration of the C3 counterexample: `XDI` is declared second
in the `versions` section. -/
def cfgC3 : RawConfig where
  versions := some [("Version.extra", "v1"), ("XDI", "# XDI/1.0 Bluesky")]
  columns := some [("Column.1", col1)]
  required_headers := some
    [("Element.symbol", some [TmplPart.ref ["md", "XDI", "Element_symbol"]])]
  optional_headers := some [("Scan.start_time", none), ("Scan.end_time", none)]

/-- The buffer of the C3 counterexample after start-document processing. -/
def bufC31 : Buffer :=
  [("Version.extra", some "v1"), ("XDI", some "# XDI/1.0 Bluesky"),
   ("Column.1", some "energy eV"), ("Element.symbol", some "B"),
   ("Scan.start_time", some "isoformat(5)"), ("Scan.end_time", none)]

/-- Counterexample to C3: with `XDI` declared second under `versions`,
the written header puts the popped `XDI` line first, so the output
header-field order is not the declared concatenation of the four
sections (which starts with `Version.extra`). -/
theorem header_order_xdi_first_counterexample :
    initialize_header_line_buffer cfgC3 docW [] =
      Except.ok [("Version.extra", none), ("XDI", none), ("Column.1", some "energy eV"),
        ("Element.symbol", some "B"), ("Scan.start_time", some "isoformat(5)"),
        ("Scan.end_time", none)] ∧
    update_header_lines_from_doc cfgC3 DocName.start docW
      [("Version.extra", none), ("XDI", none), ("Column.1", some "energy eV"),
        ("Element.symbol", some "B"), ("Scan.start_time", some "isoformat(5)"),
        ("Scan.end_time", none)] = Except.ok bufC31 ∧
    write_header bufC31 [col1] =
      Except.ok ["# XDI/1.0 Bluesky", "# Version.extra = v1", "# Column.1 = energy eV",
        "# Element.symbol = B", "# Scan.start_time = isoformat(5)",
        "# Scan.end_time = None", "#----", "# energy"] ∧
    ("XDI" :: (odRemove bufC31 "XDI").map Prod.fst) ≠
      specSectionOrder [("Version.extra", "v1"), ("XDI", "# XDI/1.0 Bluesky")]
        [("Column.1", col1)]
        [("Element.symbol", some [TmplPart.ref ["md", "XDI", "Element_symbol"]])]
        [("Scan.start_time", none), ("Scan.end_time", none)] :=
  ⟨by rfl, by rfl, by rfl, by decide⟩

/-- C3 as amended: for a valid template whose sections have pairwise
distinct field names and declare `XDI` under `versions`, the buffer's
field order after start processing and any further updates equals the
declared concatenation of the four sections; the written header consists
of the rendered `versions["XDI"]` literal alone on the first line,
followed by every other field as `# field = value` in concatenation
order with `XDI` removed (so the output order equals the concatenation
exactly when `XDI` is declared first), with still-unresolved fields
rendered as the literal text `None`, then the separator and label row. -/
theorem header_output_structure_amended (cfg : RawConfig) (startDoc : Doc)
    (mids : List (DocName × Doc)) (buf0 buf1 buf2 : Buffer)
    (vs : List (String × String)) (cols : List (String × ColumnDef))
    (reqs opts : List (String × HeaderEntry)) (xlit : String)
    (colDefs : List ColumnDef) (lines : List String)
    (hvs : cfg.versions = some vs) (hcols : cfg.columns = some cols)
    (hreqs : cfg.required_headers = some reqs) (hopts : cfg.optional_headers = some opts)
    (hnd : (specSectionOrder vs cols reqs opts).Nodup)
    (hx : alookup vs "XDI" = some xlit)
    (hinit : initialize_header_line_buffer cfg startDoc [] = Except.ok buf0)
    (hstart : update_header_lines_from_doc cfg DocName.start startDoc buf0 = Except.ok buf1)
    (hmids : update_many cfg buf1 mids = Except.ok buf2)
    (hwh : write_header buf2 colDefs = Except.ok lines) :
    odGet buf2 "XDI" = some (some xlit) ∧
    lines = xlit :: (odRemove buf2 "XDI").map fieldLine ++ ["#----", labelRow colDefs] ∧
    bufKeys buf2 = specSectionOrder vs cols reqs opts ∧
    (odRemove buf2 "XDI").map Prod.fst =
      removeFirst (specSectionOrder vs cols reqs opts) "XDI" ∧
    (∀ kv ∈ odRemove buf2 "XDI", kv.2 = none →
      fieldLine kv = "# " ++ kv.1 ++ " = None") := by
  obtain ⟨hA, hB, hC, hD, hBA, hCAB, hDABC⟩ := nodup4 hnd
  have hkXDI : "XDI" ∈ vs.map Prod.fst :=
    List.mem_map_of_mem Prod.fst (alookup_mem vs "XDI" xlit hx)
  have hval0 : odGet buf0 "XDI" = some none :=
    initialize_version_value_none cfg startDoc buf0 vs cols reqs opts "XDI"
      hvs hcols hreqs hopts hkXDI hA
      (fun hm => (hBA "XDI" hm) hkXDI)
      (fun hm => (hCAB "XDI" hm).1 hkXDI)
      (fun hm => (hDABC "XDI" hm).1 hkXDI) hinit
  have hval1 : odGet buf1 "XDI" = some (some xlit) :=
    update_resolves_version cfg DocName.start startDoc buf0 buf1 vs cols reqs opts xlit
      hvs hcols hreqs hopts hx hA hval0 hstart
  have hval2 : odGet buf2 "XDI" = some (some xlit) :=
    update_many_preserves_resolved cfg mids buf1 buf2 "XDI" xlit hval1 hmids
  have hkeys : bufKeys buf2 = specSectionOrder vs cols reqs opts := by
    rw [bufKeys_update_many cfg mids buf1 buf2 hmids,
        bufKeys_update cfg DocName.start startDoc buf0 buf1 hstart]
    exact bufKeys_initialize cfg startDoc buf0 vs cols reqs opts
      hvs hcols hreqs hopts hnd hinit
  have hlines : lines = xlit :: (odRemove buf2 "XDI").map fieldLine
      ++ ["#----", labelRow colDefs] := by
    rw [write_header_eq buf2 colDefs xlit hval2] at hwh
    injection hwh with h
    exact h.symm
  refine ⟨hval2, hlines, hkeys, ?_, ?_⟩
  · show bufKeys (odRemove buf2 "XDI") = _
    rw [bufKeys_odRemove, hkeys]
  · intro kv _ hnone
    simp only [fieldLine, headerValueStr, hnone]
    rw [String.append_assoc]
    rfl

/-- The header lines written for the C3 witness run under `cfg1`. -/
def linesP : List String :=
  ["# XDI/1.0 Bluesky", "# Column.1 = energy eV", "# Element.symbol = B",
   "# Element.edge = K", "# Scan.start_time = isoformat(5)",
   "# Scan.end_time = None", "#----", "# energy"]

/-- Witness for the amended C3 on a concrete run under `cfg1`. -/
theorem header_output_structure_amended_witness :
    write_header bufP1 [col1] = Except.ok linesP ∧
    odGet bufP1 "XDI" = some (some "# XDI/1.0 Bluesky") ∧
    bufKeys bufP1 = specSectionOrder [("XDI", "# XDI/1.0 Bluesky")] [("Column.1", col1)]
      [("Element.symbol", some [TmplPart.ref ["md", "XDI", "Element_symbol"]]),
       ("Element.edge", some [TmplPart.ref ["md", "XDI", "Element_edge"]])]
      [("Scan.start_time", none), ("Scan.end_time", none)] :=
  have h := header_output_structure_amended cfg1 docW [] bufE0 bufP1 bufP1
    [("XDI", "# XDI/1.0 Bluesky")] [("Column.1", col1)]
    [("Element.symbol", some [TmplPart.ref ["md", "XDI", "Element_symbol"]]),
     ("Element.edge", some [TmplPart.ref ["md", "XDI", "Element_edge"]])]
    [("Scan.start_time", none), ("Scan.end_time", none)]
    "# XDI/1.0 Bluesky" [col1] linesP
    rfl rfl rfl rfl (by decide) (by decide) (by rfl) (by rfl) (by rfl) (by rfl)
  ⟨by rfl, h.1, h.2.2.1⟩

/-! ### Descriptor eligibility (C4) -/

theorem all_contains_iff (l ks : List String) :
    l.all (fun k => ks.contains k) = true ↔ ∀ k ∈ l, k ∈ ks := by
  simp

theorem mem_insertUid_self (uids : List String) (u : String) :
    u ∈ insertUid uids u := by
  unfold insertUid
  by_cases h : u ∈ uids
  · rw [if_pos h]; exact h
  · rw [if_neg h]; exact List.mem_append_right _ (List.mem_singleton.mpr rfl)

theorem mem_insertUid_of_mem (uids : List String) (u v : String) (h : v ∈ uids) :
    v ∈ insertUid uids u := by
  unfold insertUid
  by_cases h0 : u ∈ uids
  · rw [if_pos h0]; exact h
  · rw [if_neg h0]; exact List.mem_append_left _ h

theorem updOptional_descriptor_ok (doc : Doc) (l : List (String × HeaderEntry)) :
    ∀ (buf : Buffer), ∃ buf',
      updOptional DocName.descriptor doc buf l = Except.ok buf' := by
  induction l with
  | nil => intro buf; exact ⟨buf, rfl⟩
  | cons hd tl ih =>
    intro buf
    obtain ⟨k₀, entry⟩ := hd
    obtain ⟨buf', hb⟩ := ih (odSet buf k₀ (renderData entry doc))
    refine ⟨buf', ?_⟩
    show updOptional DocName.descriptor doc buf ((k₀, entry) :: tl) = Except.ok buf'
    simp only [updOptional]
    rw [if_neg ?c1, if_neg ?c2]
    · exact hb
    case c1 => rintro ⟨-, h⟩; cases h
    case c2 => rintro ⟨-, h⟩; cases h

theorem update_descriptor_ok (cfg : RawConfig) (doc : Doc) (buf : Buffer)
    (vs : List (String × String)) (cols : List (String × ColumnDef))
    (reqs opts : List (String × HeaderEntry))
    (hvs : cfg.versions = some vs) (hcols : cfg.columns = some cols)
    (hreqs : cfg.required_headers = some reqs) (hopts : cfg.optional_headers = some opts) :
    ∃ buf', update_header_lines_from_doc cfg DocName.descriptor doc buf = Except.ok buf' := by
  unfold update_header_lines_from_doc
  rw [hvs, hcols, hreqs, hopts]
  simp only [getSection]
  exact updOptional_descriptor_ok doc _ _

/-- C4: in the open state, `Serializer.descriptor` succeeds on any
descriptor document (ineligibility is not an error), adds the
descriptor's uid to the eligible set exactly when the declared data keys
contain every column's source data key, never removes a uid, invokes the
header update with the document in all cases, and writes no output. -/
theorem descriptor_eligibility_and_update (s : SState) (d : DescriptorDoc)
    (cfg : RawConfig) (colDefs : List ColumnDef)
    (vs : List (String × String)) (cols : List (String × ColumnDef))
    (reqs opts : List (String × HeaderEntry))
    (hexp : s.export_data_keys = some (colDefs.map ColumnDef.data_key))
    (htmpl : s.xdi_file_template = some cfg)
    (hvs : cfg.versions = some vs) (hcols : cfg.columns = some cols)
    (hreqs : cfg.required_headers = some reqs) (hopts : cfg.optional_headers = some opts) :
    ∃ s', descriptorHandler s d = Except.ok s' ∧
      update_header_lines_from_doc cfg DocName.descriptor d.body s.header_line_buffer =
        Except.ok s'.header_line_buffer ∧
      (d.uid ∈ s'.event_descriptor_uids ↔
        (∀ k ∈ colDefs.map ColumnDef.data_key, k ∈ d.data_keys) ∨
          d.uid ∈ s.event_descriptor_uids) ∧
      (∀ u ∈ s.event_descriptor_uids, u ∈ s'.event_descriptor_uids) ∧
      s'.output_lines = s.output_lines := by
  obtain ⟨buf', hupd⟩ := update_descriptor_ok cfg d.body s.header_line_buffer
    vs cols reqs opts hvs hcols hreqs hopts
  refine ⟨{ s with
      event_descriptor_uids :=
        if (colDefs.map ColumnDef.data_key).all (fun k => d.data_keys.contains k)
        then insertUid s.event_descriptor_uids d.uid
        else s.event_descriptor_uids,
      header_line_buffer := buf' }, ?_, ?_, ?_, ?_, rfl⟩
  · unfold descriptorHandler
    rw [hexp, htmpl]
    simp only [hupd]
  · exact hupd
  · by_cases hsub : (colDefs.map ColumnDef.data_key).all (fun k => d.data_keys.contains k)
    · constructor
      · intro _
        exact Or.inl ((all_contains_iff _ _).mp hsub)
      · intro _
        simp only [if_pos hsub]
        exact mem_insertUid_self _ _
    · constructor
      · intro hmem
        simp only [if_neg hsub] at hmem
        exact Or.inr hmem
      · intro hor
        rcases hor with hall | hmem
        · exact absurd ((all_contains_iff _ _).mpr hall) hsub
        · simp only [if_neg hsub]
          exact hmem
  · intro u hu
    by_cases hsub : (colDefs.map ColumnDef.data_key).all (fun k => d.data_keys.contains k)
    · simp only [if_pos hsub]
      exact mem_insertUid_of_mem _ _ _ hu
    · simp only [if_neg hsub]
      exact hu

/-- A concrete open serializer state for the C4 witness. -/
def stW : SState where
  file_pref := []
  templated_file_pref := ""
  event_descriptor_uids := []
  xdi_file_template := some cfg1
  header_line_buffer := bufP1
  columns := some [col1]
  export_data_keys := some ([col1].map ColumnDef.data_key)
  output_open := true
  output_lines := linesP
  diagnostics := []

/-- A concrete descriptor declaring a superset of the required keys. -/
def descW : DescriptorDoc where
  body := [("time", Value.num 6)]
  data_keys := ["det1", "extra"]
  uid := "uid-1"

/-- Witness for C4 on a concrete eligible descriptor. -/
theorem descriptor_eligibility_and_update_witness :
    ∃ s', descriptorHandler stW descW = Except.ok s' ∧
      update_header_lines_from_doc cfg1 DocName.descriptor descW.body stW.header_line_buffer =
        Except.ok s'.header_line_buffer ∧
      (descW.uid ∈ s'.event_descriptor_uids ↔
        (∀ k ∈ [col1].map ColumnDef.data_key, k ∈ descW.data_keys) ∨
          descW.uid ∈ stW.event_descriptor_uids) ∧
      (∀ u ∈ stW.event_descriptor_uids, u ∈ s'.event_descriptor_uids) ∧
      s'.output_lines = stW.output_lines :=
  descriptor_eligibility_and_update stW descW cfg1 [col1] _ _ _ _
    rfl rfl rfl rfl rfl rfl

/-! ### Finalization (C8, C9, C10) -/

theorem copy_data_lines_eq_filter (l : List String) :
    copy_data_lines l = l.filter (fun line => !(startswith line "#")) := by
  induction l with
  | nil => rfl
  | cons hd tl ih =>
    by_cases h : startswith hd "#"
    · simp [copy_data_lines, List.filter_cons, h, ih]
    · simp [copy_data_lines, List.filter_cons, h, ih]

theorem copy_data_lines_sublist (l : List String) :
    (copy_data_lines l).Sublist l := by
  rw [copy_data_lines_eq_filter]
  exact List.filter_sublist l

theorem copy_data_lines_append (a b : List String) :
    copy_data_lines (a ++ b) = copy_data_lines a ++ copy_data_lines b := by
  simp [copy_data_lines_eq_filter, List.filter_append]

theorem copy_data_lines_idem (l : List String) :
    copy_data_lines (copy_data_lines l) = copy_data_lines l := by
  induction l with
  | nil => rfl
  | cons hd tl ih =>
    by_cases h : startswith hd "#"
    · simp [copy_data_lines, h, ih]
    · simp [copy_data_lines, h, ih]

theorem copy_data_lines_of_all_hash (l : List String)
    (h : ∀ x ∈ l, startswith x "#" = true) : copy_data_lines l = [] := by
  induction l with
  | nil => rfl
  | cons hd tl ih =>
    rw [copy_data_lines, if_pos (h hd (List.mem_cons_self _ _))]
    exact ih (fun x hx => h x (List.mem_cons_of_mem _ hx))

theorem copy_data_lines_of_no_hash (l : List String)
    (h : ∀ x ∈ l, startswith x "#" = false) : copy_data_lines l = l := by
  induction l with
  | nil => rfl
  | cons hd tl ih =>
    rw [copy_data_lines, if_neg (by rw [h hd (List.mem_cons_self _ _)]; exact Bool.false_ne_true)]
    rw [ih (fun x hx => h x (List.mem_cons_of_mem _ hx))]

theorem startswith_hash_fieldLine (kv : String × Option String) :
    startswith (fieldLine kv) "#" = true := by
  simp [fieldLine, startswith, String.data_append, List.isPrefixOf]

theorem startswith_hash_labelRow (cols : List ColumnDef) :
    startswith (labelRow cols) "#" = true := by
  simp [labelRow, startswith, String.data_append, List.isPrefixOf]

theorem write_header_all_hash (buf : Buffer) (cols : List ColumnDef)
    (H : List String) (x : String)
    (hwh : write_header buf cols = Except.ok H)
    (hx : odGet buf "XDI" = some (some x))
    (hxh : startswith x "#" = true) :
    ∀ l ∈ H, startswith l "#" = true := by
  rw [write_header_eq buf cols x hx] at hwh
  injection hwh with hwh
  subst hwh
  intro l hl
  rcases List.mem_cons.mp hl with h | h
  · subst h; exact hxh
  · rcases List.mem_append.mp h with h | h
    · obtain ⟨kv, _, hkv⟩ := List.mem_map.mp h
      rw [← hkv]
      exact startswith_hash_fieldLine kv
    · rcases List.mem_cons.mp h with h | h
      · subst h; rfl
      · rw [List.mem_singleton.mp h]
        exact startswith_hash_labelRow cols

/-- Inversion of a successful `Serializer.stop`. -/
theorem stopHandler_inv (s : SState) (d : StopDoc) (s' : SState)
    (h : stopHandler s d = Except.ok s') :
    ∃ cfg buf cols header,
      s.xdi_file_template = some cfg ∧ s.columns = some cols ∧
      update_header_lines_from_doc cfg DocName.stop d.body s.header_line_buffer =
        Except.ok buf ∧
      write_header buf cols = Except.ok header ∧
      s'.output_lines = header ++ copy_data_lines s.output_lines ∧
      s'.event_descriptor_uids = s.event_descriptor_uids ∧
      s'.header_line_buffer = buf ∧
      s'.output_open = false := by
  unfold stopHandler at h
  split at h
  · cases h
  · rename_i cfg htmpl
    split at h
    · cases h
    · rename_i buf hupd
      split at h
      · cases h
      · rename_i cols hcols
        split at h
        · cases h
        · rename_i header hwh
          injection h with h
          subst h
          exact ⟨cfg, buf, cols, header, htmpl, hcols, hupd, hwh, rfl, rfl, rfl, rfl⟩

/-- C8: a successful `Serializer.stop` rewrites the managed file as a
freshly written header followed by exactly the lines of the original
file that do not carry the `#` header marker, in their original order
and byte-for-byte (the copied lines form a sublist of the original
lines); no data row is re-derived or altered, and the resource ends up
closed. -/
theorem finalization_preserves_data_rows (s : SState) (d : StopDoc) (s' : SState)
    (h : stopHandler s d = Except.ok s') :
    ∃ cfg buf cols header,
      s.xdi_file_template = some cfg ∧ s.columns = some cols ∧
      update_header_lines_from_doc cfg DocName.stop d.body s.header_line_buffer =
        Except.ok buf ∧
      write_header buf cols = Except.ok header ∧
      s'.output_lines = header ++ copy_data_lines s.output_lines ∧
      copy_data_lines s.output_lines =
        s.output_lines.filter (fun line => !(startswith line "#")) ∧
      (copy_data_lines s.output_lines).Sublist s.output_lines ∧
      s'.output_open = false := by
  obtain ⟨cfg, buf, cols, header, h1, h2, h3, h4, h5, -, -, h8⟩ := stopHandler_inv s d s' h
  exact ⟨cfg, buf, cols, header, h1, h2, h3, h4, h5,
    copy_data_lines_eq_filter _, copy_data_lines_sublist _, h8⟩

/-- A state mid-run whose file holds the provisional header and two data
rows, about to receive the stop document. -/
def stStop : SState := { stW with output_lines := linesP ++ ["1\t2", "3\t4"] }

/-- The stop document of the C8 witness. -/
def stopDW : StopDoc := StopDoc.mk [("time", Value.num 200)]

/-- The finalized header of the C8 witness. -/
def linesPF : List String :=
  ["# XDI/1.0 Bluesky", "# Column.1 = energy eV", "# Element.symbol = B",
   "# Element.edge = K", "# Scan.start_time = isoformat(5)",
   "# Scan.end_time = isoformat(200)", "#----", "# energy"]

/-- The state after the C8 witness stop. -/
def stF : SState :=
  { stW with
    header_line_buffer := bufPF
    output_open := false
    output_lines := linesPF ++ ["1\t2", "3\t4"] }

/-- Witness for C8 on a concrete run. -/
theorem finalization_preserves_data_rows_witness :
    stopHandler stStop stopDW = Except.ok stF ∧
    ∃ cfg buf cols header,
      stStop.xdi_file_template = some cfg ∧ stStop.columns = some cols ∧
      update_header_lines_from_doc cfg DocName.stop stopDW.body stStop.header_line_buffer =
        Except.ok buf ∧
      write_header buf cols = Except.ok header ∧
      stF.output_lines = header ++ copy_data_lines stStop.output_lines ∧
      copy_data_lines stStop.output_lines =
        stStop.output_lines.filter (fun line => !(startswith line "#")) ∧
      (copy_data_lines stStop.output_lines).Sublist stStop.output_lines ∧
      stF.output_open = false :=
  ⟨by rfl, finalization_preserves_data_rows stStop stopDW stF (by rfl)⟩

/-- A buffer whose `XDI` version literal does not begin with `#`. -/
def bufC9 : Buffer := [("XDI", some "XDI/1.0 Bluesky"), ("Element.symbol", some "A")]

/-- Counterexample to C9: when the rendered `XDI` version line does not
begin with `#`, re-running the finalization rewrite duplicates that
line as a data row, so finalization is not idempotent. -/
theorem finalize_not_idempotent_without_hash :
    write_header bufC9 [col1] =
      Except.ok ["XDI/1.0 Bluesky", "# Element.symbol = A", "#----", "# energy"] ∧
    finalize_lines ["XDI/1.0 Bluesky", "# Element.symbol = A", "#----", "# energy"]
        (finalize_lines
          ["XDI/1.0 Bluesky", "# Element.symbol = A", "#----", "# energy"] ["1"]) ≠
      finalize_lines
        ["XDI/1.0 Bluesky", "# Element.symbol = A", "#----", "# energy"] ["1"] :=
  ⟨by rfl, by decide⟩

/-- C9 as amended: the finalization rewrite is idempotent on the header
written by `_write_header` provided the buffer's rendered `XDI` version
line begins with the `#` marker (every other header line does by
construction); without that proviso the version line is re-copied as a
data row, see the counterexample. -/
theorem finalize_idempotent_amended (buf : Buffer) (cols : List ColumnDef)
    (H L : List String) (x : String)
    (hwh : write_header buf cols = Except.ok H)
    (hx : odGet buf "XDI" = some (some x))
    (hxh : startswith x "#" = true) :
    finalize_lines H (finalize_lines H L) = finalize_lines H L := by
  have hall := write_header_all_hash buf cols H x hwh hx hxh
  unfold finalize_lines
  rw [copy_data_lines_append, copy_data_lines_of_all_hash H hall,
      List.nil_append, copy_data_lines_idem]

/-- Witness for the amended C9 on the concrete finalized header. -/
theorem finalize_idempotent_amended_witness :
    finalize_lines linesPF (finalize_lines linesPF ["1\t2"]) =
      finalize_lines linesPF ["1\t2"] :=
  finalize_idempotent_amended bufPF [col1] linesPF ["1\t2"] "# XDI/1.0 Bluesky"
    (by rfl) (by rfl) (by rfl)

/-- C10: finalization identifies header lines solely by the `#` prefix,
so an emitted data row whose text begins with `#` is dropped by the
rewrite, and the data rows are all preserved exactly when no row begins
with `#`. -/
theorem hash_rows_dropped_by_finalization :
    (∀ (rows : List String) (r : String), r ∈ rows → startswith r "#" = true →
      r ∉ copy_data_lines rows) ∧
    (∀ (header rows : List String), (∀ r ∈ rows, startswith r "#" = false) →
      finalize_lines header rows = header ++ rows) := by
  constructor
  · intro rows r _ hr hmem
    rw [copy_data_lines_eq_filter] at hmem
    have := List.of_mem_filter hmem
    rw [hr] at this
    simp at this
  · intro header rows hall
    unfold finalize_lines
    rw [copy_data_lines_of_no_hash rows hall]

/-- Witness for C10: the row `"#1\t2"` is dropped, ordinary rows are
kept verbatim. -/
theorem hash_rows_dropped_by_finalization_witness :
    "#1\t2" ∉ copy_data_lines ["#1\t2", "3\t4"] ∧
    finalize_lines ["# h"] ["1\t2", "3\t4"] = ["# h"] ++ ["1\t2", "3\t4"] :=
  ⟨hash_rows_dropped_by_finalization.1 ["#1\t2", "3\t4"] "#1\t2" (by decide) (by rfl),
   hash_rows_dropped_by_finalization.2 ["# h"] ["1\t2", "3\t4"] (by decide)⟩

/-! ### Configuration loading errors (C6) -/

/-- A start document carrying both configuration sources. -/
def startBoth : StartDoc where
  body := docW
  cfg := some cfg1
  cfgFilePath := some cfgE

/-- The state produced by accepting `startBoth`. -/
def stBoth : SState :=
  { initState [] with
    xdi_file_template := some cfg1
    header_line_buffer := bufP1
    columns := some [col1]
    export_data_keys := some ["det1"]
    output_open := true
    output_lines := linesP }

/-- Counterexample to C6: when both the inline configuration string and
the configuration-file path are supplied, `Serializer.start` raises no
error — the `if config ... elif config-file-path` chain silently uses
the inline source. -/
theorem both_config_sources_accepted :
    startBoth.cfg = some cfg1 ∧ startBoth.cfgFilePath = some cfgE ∧
    startHandler (initState []) startBoth = Except.ok stBoth ∧
    stBoth.xdi_file_template = some cfg1 ∧ cfg1 ≠ cfgE :=
  ⟨rfl, rfl, by rfl, rfl, by decide⟩

/-- C6 as amended: loading fails when neither source is supplied (with
the configuration error message), when any of the four sections is
missing from the parsed configuration (KeyError naming the section, in
access order), and when the `columns` section is empty (ValueError);
when both sources are supplied the inline configuration is used without
error (see the counterexample), so "exactly one" is not enforced. -/
theorem config_error_cases_amended (s : SState)
    (hfresh : s.xdi_file_template = none) :
    (∀ d : StartDoc, d.cfg = none → d.cfgFilePath = none →
      startHandler s d = Except.error (PyError.exception configErrMsg)) ∧
    (∀ (d : StartDoc) (c : RawConfig), d.cfg = some c → c.versions = none →
      startHandler s d = Except.error (PyError.keyError "versions")) ∧
    (∀ (d : StartDoc) (c : RawConfig) (vs : List (String × String)),
      d.cfg = some c → c.versions = some vs → c.columns = none →
      startHandler s d = Except.error (PyError.keyError "columns")) ∧
    (∀ (d : StartDoc) (c : RawConfig) (vs : List (String × String))
        (cols : List (String × ColumnDef)),
      d.cfg = some c → c.versions = some vs → c.columns = some cols →
      c.required_headers = none →
      startHandler s d = Except.error (PyError.keyError "required_headers")) ∧
    (∀ (d : StartDoc) (c : RawConfig) (vs : List (String × String))
        (cols : List (String × ColumnDef)) (reqs : List (String × HeaderEntry)),
      d.cfg = some c → c.versions = some vs → c.columns = some cols →
      c.required_headers = some reqs → c.optional_headers = none →
      startHandler s d = Except.error (PyError.keyError "optional_headers")) ∧
    (∀ (d : StartDoc) (c : RawConfig) (buf0 buf1 : Buffer) (p : String),
      d.cfg = some c → c.columns = some [] →
      initialize_header_line_buffer c d.body [] = Except.ok buf0 →
      update_header_lines_from_doc c DocName.start d.body buf0 = Except.ok buf1 →
      renderParts d.body s.file_pref = some p →
      startHandler s d = Except.error (PyError.valueError "found no Columns")) := by
  refine ⟨?_, ?_, ?_, ?_, ?_, ?_⟩
  · intro d h1 h2
    unfold startHandler configFromDoc
    rw [hfresh, h1, h2]
  · intro d c h1 h2
    have hinit : initialize_header_line_buffer c d.body [] =
        Except.error (PyError.keyError "versions") := by
      unfold initialize_header_line_buffer
      rw [h2]
      rfl
    unfold startHandler configFromDoc
    rw [hfresh, h1]
    simp only [hinit]
  · intro d c vs h1 h2 h3
    have hinit : initialize_header_line_buffer c d.body [] =
        Except.error (PyError.keyError "columns") := by
      unfold initialize_header_line_buffer
      rw [h2, h3]
      rfl
    unfold startHandler configFromDoc
    rw [hfresh, h1]
    simp only [hinit]
  · intro d c vs cols h1 h2 h3 h4
    have hinit : initialize_header_line_buffer c d.body [] =
        Except.error (PyError.keyError "required_headers") := by
      unfold initialize_header_line_buffer
      rw [h2, h3, h4]
      rfl
    unfold startHandler configFromDoc
    rw [hfresh, h1]
    simp only [hinit]
  · intro d c vs cols reqs h1 h2 h3 h4 h5
    have hinit : initialize_header_line_buffer c d.body [] =
        Except.error (PyError.keyError "optional_headers") := by
      unfold initialize_header_line_buffer
      rw [h2, h3, h4, h5]
      rfl
    unfold startHandler configFromDoc
    rw [hfresh, h1]
    simp only [hinit]
  · intro d c buf0 buf1 p h1 h2 hinit hupd hp
    unfold startHandler configFromDoc
    rw [hfresh, h1]
    simp only [hinit, hupd, hp, h2, getSection]
    simp

/-- The configuration with an empty `columns` section. -/
def cfgEmptyCols : RawConfig where
  versions := some [("XDI", "# XDI/1.0 Bluesky")]
  columns := some []
  required_headers := some []
  optional_headers := some []

/-- Witness for the amended C6 at concrete inputs for every failure
case. -/
theorem config_error_cases_amended_witness :
    startHandler (initState []) (StartDoc.mk docW none none) =
      Except.error (PyError.exception configErrMsg) ∧
    startHandler (initState [])
        (StartDoc.mk docW (some (RawConfig.mk none (some [("Column.1", col1)])
          (some []) (some []))) none) =
      Except.error (PyError.keyError "versions") ∧
    startHandler (initState [])
        (StartDoc.mk docW (some (RawConfig.mk (some [("XDI", "x")]) none
          (some []) (some []))) none) =
      Except.error (PyError.keyError "columns") ∧
    startHandler (initState [])
        (StartDoc.mk docW (some (RawConfig.mk (some [("XDI", "x")])
          (some [("Column.1", col1)]) none (some []))) none) =
      Except.error (PyError.keyError "required_headers") ∧
    startHandler (initState [])
        (StartDoc.mk docW (some (RawConfig.mk (some [("XDI", "x")])
          (some [("Column.1", col1)]) (some []) none)) none) =
      Except.error (PyError.keyError "optional_headers") ∧
    startHandler (initState []) (StartDoc.mk docW (some cfgEmptyCols) none) =
      Except.error (PyError.valueError "found no Columns") :=
  ⟨(config_error_cases_amended (initState []) rfl).1 _ rfl rfl,
   (config_error_cases_amended (initState []) rfl).2.1 _ _ rfl rfl,
   (config_error_cases_amended (initState []) rfl).2.2.1 _ _ _ rfl rfl rfl,
   (config_error_cases_amended (initState []) rfl).2.2.2.1 _ _ _ _ rfl rfl rfl rfl,
   (config_error_cases_amended (initState []) rfl).2.2.2.2.1 _ _ _ _ _ rfl rfl rfl rfl rfl,
   (config_error_cases_amended (initState []) rfl).2.2.2.2.2 _ _
     [("XDI", none)] [("XDI", some "# XDI/1.0 Bluesky")] "" rfl rfl (by rfl) (by rfl) (by rfl)⟩

/-! ### Lifecycle sequencing (C7) -/

/-- A data record arriving while the serializer is still idle. -/
def evIdle : EventPageDoc where
  body := [("data", Value.dict [("det1", Value.num 1)])]
  descriptor := "uid-x"

/-- Counterexample to C7: a data record received in the Idle state is
not a fatal error — the handler returns successfully, records a
diagnostic, and writes nothing. -/
theorem event_in_idle_not_fatal :
    processDoc (initState []) (Document.event_page evIdle) =
      Except.ok { initState [] with diagnostics := [noDescriptorMsg] } := by rfl

/-- C7 as amended: a start document received after a template is already
loaded fails fatally, and descriptor or stop documents received before
start fail fatally (uninitialized-state TypeErrors, not a dedicated
SequenceError); but a data record received before start (empty eligible
set) is skipped with a recoverable diagnostic rather than an error, and
after stop no state check rejects documents — a descriptor received
after the output is closed is still processed successfully. -/
theorem sequence_error_cases_amended :
    (∀ (s : SState) (d : StartDoc) (c : RawConfig), s.xdi_file_template = some c →
      startHandler s d = Except.error (PyError.exception "")) ∧
    (∀ (s : SState) (d : DescriptorDoc), s.export_data_keys = none →
      descriptorHandler s d = Except.error (PyError.typeError "set() argument is None")) ∧
    (∀ (s : SState) (d : StopDoc), s.xdi_file_template = none →
      stopHandler s d = Except.error (PyError.typeError "NoneType is not subscriptable")) ∧
    (∀ (s : SState) (d : EventPageDoc), s.event_descriptor_uids = [] →
      eventPageHandler s d =
        Except.ok { s with diagnostics := s.diagnostics ++ [noDescriptorMsg] }) ∧
    (∀ (s : SState) (d : DescriptorDoc) (cfg : RawConfig) (ks : List String)
        (vs : List (String × String)) (cols : List (String × ColumnDef))
        (reqs opts : List (String × HeaderEntry)),
      s.output_open = false → s.export_data_keys = some ks →
      s.xdi_file_template = some cfg → cfg.versions = some vs →
      cfg.columns = some cols → cfg.required_headers = some reqs →
      cfg.optional_headers = some opts →
      ∃ s', descriptorHandler s d = Except.ok s') := by
  refine ⟨?_, ?_, ?_, ?_, ?_⟩
  · intro s d c h
    unfold startHandler
    rw [h]
  · intro s d h
    unfold descriptorHandler
    rw [h]
  · intro s d h
    unfold stopHandler
    rw [h]
  · intro s d h
    unfold eventPageHandler
    rw [h]
    rfl
  · intro s d cfg ks vs cols reqs opts _ hexp htmpl hvs hcols hreqs hopts
    obtain ⟨buf', hupd⟩ := update_descriptor_ok cfg d.body s.header_line_buffer
      vs cols reqs opts hvs hcols hreqs hopts
    refine ⟨{ s with
        event_descriptor_uids :=
          if ks.all (fun k => d.data_keys.contains k)
          then insertUid s.event_descriptor_uids d.uid
          else s.event_descriptor_uids,
        header_line_buffer := buf' }, ?_⟩
    unfold descriptorHandler
    rw [hexp, htmpl]
    simp only [hupd]

/-- Witness for the amended C7 at concrete states. -/
theorem sequence_error_cases_amended_witness :
    startHandler stW (StartDoc.mk docW (some cfg1) none) =
      Except.error (PyError.exception "") ∧
    descriptorHandler (initState []) descW =
      Except.error (PyError.typeError "set() argument is None") ∧
    stopHandler (initState []) stopDW =
      Except.error (PyError.typeError "NoneType is not subscriptable") ∧
    eventPageHandler (initState []) evIdle =
      Except.ok { initState [] with diagnostics := [noDescriptorMsg] } ∧
    (∃ s', descriptorHandler stF descW = Except.ok s') :=
  ⟨sequence_error_cases_amended.1 stW _ cfg1 rfl,
   sequence_error_cases_amended.2.1 (initState []) descW rfl,
   sequence_error_cases_amended.2.2.1 (initState []) stopDW rfl,
   sequence_error_cases_amended.2.2.2.1 (initState []) evIdle rfl,
   sequence_error_cases_amended.2.2.2.2 stF descW cfg1 (["det1"]) _ _ _ _
     rfl rfl rfl rfl rfl rfl rfl⟩

/-! ### Row counting (C5) -/

theorem mem_insertUid_elim (v : String) (uids : List String) (u : String)
    (h : v ∈ insertUid uids u) : v ∈ uids ∨ v = u := by
  unfold insertUid at h
  by_cases h0 : u ∈ uids
  · rw [if_pos h0] at h; exact Or.inl h
  · rw [if_neg h0] at h
    rcases List.mem_append.mp h with h | h
    · exact Or.inl h
    · exact Or.inr (List.mem_singleton.mp h)

theorem descriptorHandler_eq (s : SState) (d : DescriptorDoc) (ks : List String)
    (cfg : RawConfig) (buf : Buffer)
    (hexp : s.export_data_keys = some ks)
    (htmpl : s.xdi_file_template = some cfg)
    (hupd : update_header_lines_from_doc cfg DocName.descriptor d.body
      s.header_line_buffer = Except.ok buf) :
    descriptorHandler s d = Except.ok { s with
      event_descriptor_uids :=
        if ks.all (fun k => d.data_keys.contains k)
        then insertUid s.event_descriptor_uids d.uid
        else s.event_descriptor_uids,
      header_line_buffer := buf } := by
  unfold descriptorHandler
  rw [hexp, htmpl]
  simp only [hupd]

theorem eventPageHandler_empty (s : SState) (d : EventPageDoc)
    (h : s.event_descriptor_uids = []) :
    eventPageHandler s d =
      Except.ok { s with diagnostics := s.diagnostics ++ [noDescriptorMsg] } := by
  unfold eventPageHandler
  rw [h]
  rfl

theorem eventPageHandler_skip (s : SState) (d : EventPageDoc)
    (hne : ¬s.event_descriptor_uids.length = 0)
    (hnot : d.descriptor ∉ s.event_descriptor_uids) :
    eventPageHandler s d =
      Except.ok { s with diagnostics := s.diagnostics ++ [noDataMsg] } := by
  unfold eventPageHandler
  rw [if_neg hne, if_neg hnot]

theorem eventPageHandler_row (s : SState) (d : EventPageDoc) (cols : List ColumnDef)
    (cells : List String)
    (hne : ¬s.event_descriptor_uids.length = 0)
    (hmem : d.descriptor ∈ s.event_descriptor_uids)
    (hcols : s.columns = some cols)
    (hcells : renderRowCells d.body cols = Except.ok cells)
    (hopen : s.output_open = true) :
    eventPageHandler s d =
      Except.ok { s with
        output_lines := s.output_lines ++ [String.intercalate "\t" cells] } := by
  unfold eventPageHandler
  rw [if_neg hne, if_pos hmem, hcols]
  simp only [hcells, hopen]
  rfl

theorem startHandler_inv (s : SState) (d : StartDoc) (s' : SState)
    (h : startHandler s d = Except.ok s') :
    s'.event_descriptor_uids = s.event_descriptor_uids ∧
    s'.output_open = true ∧
    s'.diagnostics = s.diagnostics ∧
    ∃ cols0, s'.columns = some cols0 ∧
      write_header s'.header_line_buffer cols0 = Except.ok s'.output_lines := by
  unfold startHandler at h
  split at h
  · cases h
  · split at h
    · cases h
    · rename_i cfg hcfg
      split at h
      · cases h
      · rename_i buf0 hinit
        split at h
        · cases h
        · rename_i buf1 hupd
          split at h
          · cases h
          · rename_i p hp
            split at h
            · cases h
            · rename_i cols hcols
              dsimp only [] at h
              split at h
              · cases h
              · split at h
                · cases h
                · rename_i hlen header hwh
                  injection h with h
                  subst h
                  exact ⟨rfl, rfl, rfl, cols.map Prod.snd, rfl, hwh⟩

theorem write_header_ok_inv (buf : Buffer) (cols : List ColumnDef) (H : List String)
    (h : write_header buf cols = Except.ok H) :
    ∃ x, odGet buf "XDI" = some (some x) ∧
      H = x :: (odRemove buf "XDI").map fieldLine ++ ["#----", labelRow cols] := by
  unfold write_header at h
  split at h
  · cases h
  · cases h
  · rename_i x hx
    injection h with h
    exact ⟨x, hx, h.symm⟩

theorem dataLines_append (a b : List String) :
    dataLines (a ++ b) = dataLines a ++ dataLines b := by
  simp [dataLines, List.filter_append]

theorem dataLines_nil_of_hash (l : List String)
    (h : ∀ x ∈ l, startswith x "#" = true) : dataLines l = [] := by
  rw [dataLines, List.filter_eq_nil_iff]
  intro a ha
  rw [h a ha]
  simp

theorem dataLines_self_of_no_hash (l : List String)
    (h : ∀ x ∈ l, startswith x "#" = false) : dataLines l = l := by
  rw [dataLines, List.filter_eq_self]
  intro a ha
  rw [h a ha]
  rfl

theorem processDocs_mid_spec (cols : List ColumnDef) (ks : List String) (cfg : RawConfig)
    (vs : List (String × String)) (cs : List (String × ColumnDef))
    (reqs opts : List (String × HeaderEntry))
    (hvs : cfg.versions = some vs) (hcs : cfg.columns = some cs)
    (hreqs : cfg.required_headers = some reqs) (hopts : cfg.optional_headers = some opts) :
    ∀ (mids : List Document) (s s' : SState) (seen : List String),
      processDocs s mids = Except.ok s' →
      mids.all isMidDoc = true →
      descriptorsPrecedeEvents seen mids = true →
      (∀ u ∈ s.event_descriptor_uids, u ∈ seen) →
      (descriptorUids mids).Nodup →
      (∀ u ∈ descriptorUids mids, u ∉ seen) →
      s.xdi_file_template = some cfg → s.columns = some cols →
      s.export_data_keys = some ks → s.output_open = true →
      (s'.xdi_file_template = some cfg ∧ s'.columns = some cols ∧
        s'.export_data_keys = some ks ∧ s'.output_open = true) ∧
      (∀ u ∈ s.event_descriptor_uids, u ∈ s'.event_descriptor_uids) ∧
      (∀ u ∈ s'.event_descriptor_uids,
        u ∈ s.event_descriptor_uids ∨ u ∈ descriptorUids mids) ∧
      (∀ (k : String) (v : String), odGet s.header_line_buffer k = some (some v) →
        odGet s'.header_line_buffer k = some (some v)) ∧
      ∃ rows : List String,
        s'.output_lines = s.output_lines ++ rows ∧
        rows.length = (eventsOf mids).countP
          (fun e => s'.event_descriptor_uids.contains e.descriptor) ∧
        (∀ r ∈ rows, ∃ (e : EventPageDoc) (cells : List String),
          Document.event_page e ∈ mids ∧
          renderRowCells e.body cols = Except.ok cells ∧
          r = String.intercalate "\t" cells) := by
  intro mids
  induction mids with
  | nil =>
    intro s s' seen hrun _ _ _ _ _ htmpl hcolsS hexp hopen
    simp only [processDocs] at hrun
    cases hrun
    exact ⟨⟨htmpl, hcolsS, hexp, hopen⟩, fun u hu => hu, fun u hu => Or.inl hu,
      fun k v hv => hv, [], (List.append_nil _).symm, rfl, by simp⟩
  | cons d rest ih =>
    intro s s' seen hrun hall hprec hseen hnd hdisj htmpl hcolsS hexp hopen
    have halld : isMidDoc d = true ∧ rest.all isMidDoc = true := by
      simpa [List.all_cons] using hall
    cases d with
    | start sd => simp [isMidDoc] at halld
    | stop ed => simp [isMidDoc] at halld
    | descriptor dd =>
      obtain ⟨buf, hupd⟩ := update_descriptor_ok cfg dd.body s.header_line_buffer
        vs cs reqs opts hvs hcs hreqs hopts
      have hstep := descriptorHandler_eq s dd ks cfg buf hexp htmpl hupd
      simp only [processDocs, processDoc, hstep] at hrun
      simp only [descriptorsPrecedeEvents] at hprec
      simp only [descriptorUids] at hnd hdisj
      have hhd_nin : dd.uid ∉ descriptorUids rest := (List.nodup_cons.mp hnd).1
      have hnd' : (descriptorUids rest).Nodup := (List.nodup_cons.mp hnd).2
      have hdisj' : ∀ u ∈ descriptorUids rest, u ∉ dd.uid :: seen := by
        intro u hu hmem
        rcases List.mem_cons.mp hmem with h | h
        · exact hhd_nin (h ▸ hu)
        · exact hdisj u (List.mem_cons_of_mem _ hu) h
      have hseen1 : ∀ u ∈ (if ks.all (fun k => dd.data_keys.contains k)
          then insertUid s.event_descriptor_uids dd.uid
          else s.event_descriptor_uids), u ∈ dd.uid :: seen := by
        intro u hu
        by_cases hsub : ks.all (fun k => dd.data_keys.contains k)
        · rw [if_pos hsub] at hu
          rcases mem_insertUid_elim u _ _ hu with h | h
          · exact List.mem_cons_of_mem _ (hseen u h)
          · exact h ▸ List.mem_cons_self _ _
        · rw [if_neg hsub] at hu
          exact List.mem_cons_of_mem _ (hseen u hu)
      obtain ⟨hstruct, hmono, hupper, hbufpres, rows, hout, hlen, horig⟩ :=
        ih _ s' (dd.uid :: seen) hrun halld.2 hprec hseen1 hnd' hdisj'
          htmpl hcolsS hexp hopen
      refine ⟨hstruct, ?_, ?_, ?_, rows, hout, ?_, ?_⟩
      · intro u hu
        apply hmono
        show u ∈ (if ks.all (fun k => dd.data_keys.contains k)
          then insertUid s.event_descriptor_uids dd.uid else s.event_descriptor_uids)
        by_cases hsub : ks.all (fun k => dd.data_keys.contains k)
        · rw [if_pos hsub]
          exact mem_insertUid_of_mem _ _ _ hu
        · rw [if_neg hsub]
          exact hu
      · intro u hu
        simp only [descriptorUids]
        rcases hupper u hu with h | h
        · by_cases hsub : ks.all (fun k => dd.data_keys.contains k)
          · rw [if_pos hsub] at h
            rcases mem_insertUid_elim u _ _ h with h' | h'
            · exact Or.inl h'
            · exact Or.inr (h' ▸ List.mem_cons_self _ _)
          · rw [if_neg hsub] at h
            exact Or.inl h
        · exact Or.inr (List.mem_cons_of_mem _ h)
      · intro k v hv
        exact hbufpres k v
          (update_preserves_resolved cfg DocName.descriptor dd.body _ buf k v hv hupd)
      · simpa only [eventsOf] using hlen
      · intro r hr
        obtain ⟨e, cells, hm, hc, hr'⟩ := horig r hr
        exact ⟨e, cells, List.mem_cons_of_mem _ hm, hc, hr'⟩
    | event_page e =>
      simp only [descriptorsPrecedeEvents, Bool.and_eq_true] at hprec
      obtain ⟨hseenE, hprec'⟩ := hprec
      have hseenE' : e.descriptor ∈ seen := by simpa using hseenE
      simp only [descriptorUids] at hnd hdisj
      simp only [eventsOf]
      by_cases hU : s.event_descriptor_uids = []
      · have hstep := eventPageHandler_empty s e hU
        simp only [processDocs, processDoc, hstep] at hrun
        obtain ⟨hstruct, hmono, hupper, hbufpres, rows, hout, hlen, horig⟩ :=
          ih _ s' seen hrun halld.2 hprec' hseen hnd hdisj htmpl hcolsS hexp hopen
        have hnotin : e.descriptor ∉ s'.event_descriptor_uids := by
          intro hmem
          rcases hupper _ hmem with h | h
          · have h' : e.descriptor ∈ s.event_descriptor_uids := h
            rw [hU] at h'
            simp at h'
          · exact hdisj _ h hseenE'
        have hpe : s'.event_descriptor_uids.contains e.descriptor = false := by
          simpa using hnotin
        refine ⟨hstruct, fun u hu => hmono u hu, fun u hu => hupper u hu,
          hbufpres, rows, hout, ?_, ?_⟩
        · rw [hlen, List.countP_cons, hpe]
          simp
        · intro r hr
          obtain ⟨e', cells, hm, hc, hr'⟩ := horig r hr
          exact ⟨e', cells, List.mem_cons_of_mem _ hm, hc, hr'⟩
      · have hlen0 : ¬s.event_descriptor_uids.length = 0 := by
          intro h0
          exact hU (List.length_eq_zero.mp h0)
        by_cases hmemE : e.descriptor ∈ s.event_descriptor_uids
        · cases hcell : renderRowCells e.body cols with
          | error err =>
            have hstep : eventPageHandler s e = Except.error err := by
              unfold eventPageHandler
              rw [if_neg hlen0, if_pos hmemE, hcolsS]
              simp only [hcell]
            simp only [processDocs, processDoc, hstep] at hrun
            cases hrun
          | ok cells =>
            have hstep := eventPageHandler_row s e cols cells hlen0 hmemE hcolsS hcell hopen
            simp only [processDocs, processDoc, hstep] at hrun
            obtain ⟨hstruct, hmono, hupper, hbufpres, rows, hout, hlen, horig⟩ :=
              ih _ s' seen hrun halld.2 hprec' hseen hnd hdisj htmpl hcolsS hexp hopen
            have hin : e.descriptor ∈ s'.event_descriptor_uids := hmono _ hmemE
            have hpe : s'.event_descriptor_uids.contains e.descriptor = true := by
              simpa using hin
            refine ⟨hstruct, fun u hu => hmono u hu, fun u hu => hupper u hu, hbufpres,
              String.intercalate "\t" cells :: rows, ?_, ?_, ?_⟩
            · rw [hout]
              show (s.output_lines ++ [String.intercalate "\t" cells]) ++ rows = _
              rw [List.append_assoc]
              rfl
            · rw [List.length_cons, hlen, List.countP_cons, hpe]
              simp
            · intro r hr
              rcases List.mem_cons.mp hr with h | h
              · exact ⟨e, cells, List.mem_cons_self _ _, hcell, h⟩
              · obtain ⟨e', cells', hm, hc, hr'⟩ := horig r h
                exact ⟨e', cells', List.mem_cons_of_mem _ hm, hc, hr'⟩
        · have hstep := eventPageHandler_skip s e hlen0 hmemE
          simp only [processDocs, processDoc, hstep] at hrun
          obtain ⟨hstruct, hmono, hupper, hbufpres, rows, hout, hlen, horig⟩ :=
            ih _ s' seen hrun halld.2 hprec' hseen hnd hdisj htmpl hcolsS hexp hopen
          have hnotin : e.descriptor ∉ s'.event_descriptor_uids := by
            intro hmem
            rcases hupper _ hmem with h | h
            · exact hmemE h
            · exact hdisj _ h hseenE'
          have hpe : s'.event_descriptor_uids.contains e.descriptor = false := by
            simpa using hnotin
          refine ⟨hstruct, fun u hu => hmono u hu, fun u hu => hupper u hu,
            hbufpres, rows, hout, ?_, ?_⟩
          · rw [hlen, List.countP_cons, hpe]
            simp
          · intro r hr
            obtain ⟨e', cells, hm, hc, hr'⟩ := horig r hr
            exact ⟨e', cells, List.mem_cons_of_mem _ hm, hc, hr'⟩

/-- A column whose data template renders a row starting with `#`. -/
def colH : ColumnDef where
  column_label := [TmplPart.lit "energy"]
  data_key := "det1"
  column_data := [TmplPart.lit "#oops"]
  units := none

/-- The configuration of the C5 counterexample. -/
def cfgH : RawConfig where
  versions := some [("XDI", "# XDI/1.0 Bluesky")]
  columns := some [("Column.1", colH)]
  required_headers := some []
  optional_headers := some [("Scan.start_time", none), ("Scan.end_time", none)]

/-- A data record tied to the eligible descriptor `uid-1`. -/
def evW : EventPageDoc where
  body := [("data", Value.dict [("det1", Value.num 1)])]
  descriptor := "uid-1"

/-- The complete counterexample run: one eligible descriptor and one
accepted data record whose rendered row starts with `#`. -/
def docsH : List Document :=
  [Document.start (StartDoc.mk docW (some cfgH) none),
   Document.descriptor descW, Document.event_page evW, Document.stop stopDW]

/-- The final state of the `docsH` run. -/
def sH : SState where
  file_pref := []
  templated_file_pref := ""
  event_descriptor_uids := ["uid-1"]
  xdi_file_template := some cfgH
  header_line_buffer :=
    [("XDI", some "# XDI/1.0 Bluesky"), ("Column.1", some "energy"),
     ("Scan.start_time", some "isoformat(5)"), ("Scan.end_time", some "isoformat(200)")]
  columns := some [colH]
  export_data_keys := some ["det1"]
  output_open := false
  output_lines :=
    ["# XDI/1.0 Bluesky", "# Column.1 = energy", "# Scan.start_time = isoformat(5)",
     "# Scan.end_time = isoformat(200)", "#----", "# energy"]
  diagnostics := []

/-- Counterexample to C5: the run accepts one data record whose
descriptor is in the eligible set (so the claim predicts one data row),
but the record's rendered row starts with `#` and finalization drops it,
leaving zero data rows in the finalized output. -/
theorem row_count_hash_row_counterexample :
    processDocs (initState []) docsH = Except.ok sH ∧
    (eventsOf docsH).countP
      (fun e => sH.event_descriptor_uids.contains e.descriptor) = 1 ∧
    (dataLines sH.output_lines).length = 0 ∧
    (0 : Nat) ≠ 1 :=
  ⟨by rfl, by rfl, by rfl, by decide⟩

/-- C5 as amended: for a run whose mid-run documents are descriptors and
data records delivered with every record's descriptor declared earlier
(the upstream stream contract), with distinct descriptor uids, a
`#`-prefixed `XDI` version literal, and no rendered row starting with
`#` (see C10) or containing a newline, the number of data rows in the
finalized output equals the number of data records whose descriptor uid
is in the (monotonically grown, hence final) eligible set; and a data
record whose descriptor uid is not in the eligible set when it arrives —
in particular when the set is empty — is skipped with a non-fatal
diagnostic and produces no output row. -/
theorem row_count_amended (s0 : SState) (sd : StartDoc) (mids : List Document)
    (ed : StopDoc) (s1 s2 sF : SState) (cfg : RawConfig) (cols : List ColumnDef)
    (ks : List String)
    (vs : List (String × String)) (cs : List (String × ColumnDef))
    (reqs opts : List (String × HeaderEntry)) (xlit : String)
    (hstart : startHandler s0 sd = Except.ok s1)
    (huids0 : s1.event_descriptor_uids = [])
    (htmpl : s1.xdi_file_template = some cfg)
    (hcolsS : s1.columns = some cols)
    (hexp : s1.export_data_keys = some ks)
    (hvs : cfg.versions = some vs) (hcs : cfg.columns = some cs)
    (hreqs : cfg.required_headers = some reqs) (hopts : cfg.optional_headers = some opts)
    (hmid : processDocs s1 mids = Except.ok s2)
    (hstop : stopHandler s2 ed = Except.ok sF)
    (hmidall : mids.all isMidDoc = true)
    (hprec : descriptorsPrecedeEvents [] mids = true)
    (hnodup : (descriptorUids mids).Nodup)
    (hXDI : odGet s1.header_line_buffer "XDI" = some (some xlit))
    (hxlit : startswith xlit "#" = true)
    (hrows : ∀ (e : EventPageDoc), Document.event_page e ∈ mids →
      ∀ cells, renderRowCells e.body cols = Except.ok cells →
        startswith (String.intercalate "\t" cells) "#" = false ∧
        '\n' ∉ (String.intercalate "\t" cells).data) :
    (dataLines sF.output_lines).length =
      (eventsOf mids).countP
        (fun e => sF.event_descriptor_uids.contains e.descriptor) ∧
    (∀ (s : SState) (e : EventPageDoc), e.descriptor ∉ s.event_descriptor_uids →
      ∃ msg, eventPageHandler s e =
        Except.ok { s with diagnostics := s.diagnostics ++ [msg] }) := by
  obtain ⟨-, hopen1, -, cols0, hcols0, hwh0⟩ := startHandler_inv s0 sd s1 hstart
  rw [hcolsS] at hcols0
  injection hcols0 with hcols0
  subst hcols0
  have hhash1 : ∀ l ∈ s1.output_lines, startswith l "#" = true :=
    write_header_all_hash s1.header_line_buffer cols s1.output_lines xlit hwh0 hXDI hxlit
  obtain ⟨⟨htmpl2, hcols2, hexp2, hopen2⟩, hmono, hupper, hbufpres, rows, hout, hlen, horig⟩ :=
    processDocs_mid_spec cols ks cfg vs cs reqs opts hvs hcs hreqs hopts mids s1 s2 []
      hmid hmidall hprec (by intro u hu; rw [huids0] at hu; simp at hu) hnodup
      (by intro u _ h; simp at h) htmpl hcolsS hexp hopen1
  obtain ⟨cfg', bufF, colsF, HF, htmplF, hcolsF, hupdF, hwhF, houtF, huidsF, -, -⟩ :=
    stopHandler_inv s2 ed sF hstop
  rw [htmpl2] at htmplF
  injection htmplF with hcfg'
  subst hcfg'
  rw [hcols2] at hcolsF
  injection hcolsF with hcolsF
  subst hcolsF
  have hXDI2 : odGet s2.header_line_buffer "XDI" = some (some xlit) :=
    hbufpres _ _ hXDI
  have hXDIF : odGet bufF "XDI" = some (some xlit) :=
    update_preserves_resolved cfg DocName.stop ed.body _ bufF _ _ hXDI2 hupdF
  have hhashF : ∀ l ∈ HF, startswith l "#" = true :=
    write_header_all_hash bufF cols HF xlit hwhF hXDIF hxlit
  have hrows' : ∀ r ∈ rows, startswith r "#" = false := by
    intro r hr
    obtain ⟨e, cells, hm, hc, hr'⟩ := horig r hr
    rw [hr']
    exact (hrows e hm cells hc).1
  constructor
  · rw [houtF, hout, copy_data_lines_append,
        copy_data_lines_of_all_hash _ hhash1, List.nil_append,
        copy_data_lines_of_no_hash _ hrows', dataLines_append,
        dataLines_nil_of_hash _ hhashF, List.nil_append,
        dataLines_self_of_no_hash _ hrows', hlen, huidsF]
  · intro s e hnot
    by_cases hU : s.event_descriptor_uids = []
    · exact ⟨noDescriptorMsg, eventPageHandler_empty s e hU⟩
    · refine ⟨noDataMsg, eventPageHandler_skip s e ?_ hnot⟩
      intro h0
      exact hU (List.length_eq_zero.mp h0)

/-- The mid-run documents of the C5 witness. -/
def midsW : List Document := [Document.descriptor descW, Document.event_page evW]

/-- The state of the C5 witness run after the mid-run documents. -/
def s2W : SState :=
  { stBoth with
    event_descriptor_uids := ["uid-1"]
    output_lines := linesP ++ ["1"] }

/-- The final state of the C5 witness run. -/
def sFW : SState :=
  { stBoth with
    event_descriptor_uids := ["uid-1"]
    header_line_buffer := bufPF
    output_open := false
    output_lines := linesPF ++ ["1"] }

/-- Witness for the amended C5 on a concrete run with one eligible
descriptor and one accepted data record. -/
theorem row_count_amended_witness :
    (dataLines sFW.output_lines).length =
      (eventsOf midsW).countP
        (fun e => sFW.event_descriptor_uids.contains e.descriptor) ∧
    (∀ (s : SState) (e : EventPageDoc), e.descriptor ∉ s.event_descriptor_uids →
      ∃ msg, eventPageHandler s e =
        Except.ok { s with diagnostics := s.diagnostics ++ [msg] }) :=
  row_count_amended (initState []) (StartDoc.mk docW (some cfg1) none) midsW stopDW
    stBoth s2W sFW cfg1 [col1] ["det1"] _ _ _ _ "# XDI/1.0 Bluesky"
    (by rfl) rfl rfl rfl rfl rfl rfl rfl rfl (by rfl) (by rfl)
    (by rfl) (by rfl) (by decide) (by rfl) (by rfl)
    (by
      intro e he cells hc
      rcases List.mem_cons.mp he with h | h
      · cases h
      · rcases List.mem_cons.mp h with h' | h'
        · injection h' with h''
          subst h''
          have hok : renderRowCells evW.body [col1] = Except.ok ["1"] := by rfl
          rw [hok] at hc
          injection hc with hc
          subst hc
          exact ⟨by rfl, by decide⟩
        · simp at h')

end SuitcaseXdi
